import Mathlib

/-!
Verification of go-dump1090-timeseries-collector: decoder, batcher, reader.

A shallow embedding of `internal/parser/sbs1_parser.go` (`ParseSBS1Message`) and of
the batching loop, sink writer and source reader of `main.go` (`parseAndBatchData`,
`batchWriter`, `connectToDump1090`, `readData`), with the properties of the
specification stated and proved over it.

Conventions of the embedding.

* A Go `string` is a list of characters (`GoString`); the empty string is `[]`.
  Raw lines are taken to be valid UTF-8, so that characters are what `TrimSpace`
  and `Split` see.  A Go `string` field of the record that is "absent" holds the
  empty string.
* A Go pointer field (`*int`, `*float64`, `*bool`) is an `Option`; `nil` is `none`.
* `strings.TrimSpace`, `strings.Split` and `strconv.Atoi` (64-bit `int`) are embedded
  from their documented behaviour.  `strconv.ParseFloat` and `time.Parse` belong to
  the Go standard library and produce values of types (`float64`, `time.Time`) that
  are kept abstract: they are the two fields of `StdLib`.
* `time.Now()` is read at most twice by one call of `ParseSBS1Message`; the two
  readings are the two fields of `Clock`.
* `log.Printf` calls write to the process log only and are not part of the result.
* The `for`/`select` loop of `parseAndBatchData` is a function of the events its
  `select` receives, in the order it receives them; the batches it sends on
  `batchChan` are recorded in order.  The batcher and `batchWriter` together are a
  step function over the choices of the scheduler (`Pipeline`).
* The reader goroutine is a step function over what it receives where it waits:
  the result of `net.Dial`, the end of a retry delay, `doneChan`, a scanned line.
  Real time is not modelled: a restart of the ticker is a `ticker.Reset` call.
-/

namespace Dump1090

/-- A Go string, as the list of its characters. -/
abbrev GoString := List Char

/-! ## Standard-library functions used by the parser -/

/-- Go `unicode.IsSpace`: the characters with the Unicode White_Space property. -/
def isSpace (c : Char) : Bool :=
  let n := c.toNat
  (0x09 ≤ n && n ≤ 0x0D) || n == 0x20 || n == 0x85 || n == 0xA0 || n == 0x1680 ||
  (0x2000 ≤ n && n ≤ 0x200A) || n == 0x2028 || n == 0x2029 || n == 0x202F ||
  n == 0x205F || n == 0x3000

/-- Leading white space removed. -/
def trimLeft : GoString → GoString
  | [] => []
  | c :: cs => if isSpace c then trimLeft cs else c :: cs

/-- Trailing white space removed. -/
def trimRight (s : GoString) : GoString :=
  (trimLeft s.reverse).reverse

/-- Go `strings.TrimSpace`: leading and trailing white space removed. -/
def TrimSpace (s : GoString) : GoString :=
  trimRight (trimLeft s)

/-- Go `strings.Split(s, ",")`: the substrings between commas; always one more
element than there are commas, so the empty string splits to one empty field. -/
def Split : GoString → List GoString
  | [] => [[]]
  | c :: cs =>
    if c = ',' then [] :: Split cs
    else
      match Split cs with
      | [] => [[c]]
      | f :: fs => (c :: f) :: fs

/-- Value of a decimal digit character, if it is one. -/
def digitVal (c : Char) : Option Nat :=
  if '0' ≤ c ∧ c ≤ '9' then some (c.toNat - 48) else none

/-- Value of a string of decimal digits read after the accumulated value `acc`;
`none` as soon as a character is not a digit. -/
def parseDigits : GoString → Nat → Option Nat
  | [], acc => some acc
  | c :: cs, acc =>
    match digitVal c with
    | some d => parseDigits cs (acc * 10 + d)
    | none => none

/-- An unsigned decimal numeral: at least one digit, digits only. -/
def parseUnsigned (s : GoString) : Option Nat :=
  match s with
  | [] => none
  | _ :: _ => parseDigits s 0

/-- Go `strconv.Atoi` on a 64-bit platform: an optional sign, then at least one
decimal digit and nothing else; a value outside the `int` range is an error. -/
def Atoi (s : GoString) : Option Int :=
  match s with
  | '-' :: rest =>
    match parseUnsigned rest with
    | some n => if n ≤ 2 ^ 63 then some (-(n : Int)) else none
    | none => none
  | '+' :: rest =>
    match parseUnsigned rest with
    | some n => if n < 2 ^ 63 then some (n : Int) else none
    | none => none
  | _ =>
    match parseUnsigned s with
    | some n => if n < 2 ^ 63 then some (n : Int) else none
    | none => none

/-- The standard-library parsers whose results are kept abstract: `F` stands for
`float64`, `T` for `time.Time`.  `ParseFloat s` is `strconv.ParseFloat(s, 64)` and
`ParseTime s` is `time.Parse("2006/01/02 15:04:05", s)`; `none` is a non-nil error. -/
structure StdLib (F T : Type) where
  ParseFloat : GoString → Option F
  ParseTime : GoString → Option T

/-- The wall-clock readings available to one call of `ParseSBS1Message`: `genNow` is
what `time.Now()` returns if it is called for the generated timestamp, `logNow` what
it returns if it is called for the logged timestamp. -/
structure Clock (T : Type) where
  genNow : T
  logNow : T
deriving DecidableEq

/-! ## The record (`models/aircraft.go`) -/

/-- Go `models.AircraftData`. -/
structure AircraftData (F T : Type) where
  MessageType : GoString
  TransmissionType : GoString
  SessionID : Option Int
  AircraftID : Option Int
  HexIdent : GoString
  FlightID : Option Int
  GeneratedTimestamp : T
  LoggedTimestamp : T
  Callsign : GoString
  Altitude : Option Int
  GroundSpeed : Option F
  Track : Option F
  Latitude : Option F
  Longitude : Option F
  VerticalRate : Option Int
  Squawk : GoString
  Alert : Option Bool
  Emergency : Option Bool
  SPI : Option Bool
  IsOnGround : Option Bool
deriving DecidableEq

/-! ## The parser (`internal/parser/sbs1_parser.go`) -/

/-- The text `"MSG"`. -/
def msgTag : GoString := ['M', 'S', 'G']

/-- The guard `len(fields) > i && fields[i] != ""` of the optional fields: the raw
text of field `i` when it exists and is not the empty string. -/
def optField (fields : List GoString) (i : Nat) : Option GoString :=
  match fields[i]? with
  | some f => if f = [] then none else some f
  | none => none

/-- The pattern `if len(fields) > i then strings.TrimSpace(fields[i])` over a variable
initialised to the empty string. -/
def trimmedOrEmpty (fields : List GoString) (i : Nat) : GoString :=
  match fields[i]? with
  | some f => TrimSpace f
  | none => []

/-- One of the two timestamps: parsed from the date and time texts when both are
non-empty and `time.Parse` accepts them, the clock reading `now` otherwise. -/
def timestampOf {F T : Type} (lib : StdLib F T) (date time : GoString) (now : T) : T :=
  if date ≠ [] ∧ time ≠ [] then
    match lib.ParseTime (date ++ ' ' :: time) with
    | some t => t
    | none => now
  else now

/-- A flag field: `strings.TrimSpace(f) == "1"`. -/
def flagOf (f : GoString) : Bool :=
  decide (TrimSpace f = ['1'])

/-- The record that `ParseSBS1Message` builds from the fields of a line that passed
the length and message-type checks. -/
def buildRecord {F T : Type} (lib : StdLib F T) (clock : Clock T)
    (fields : List GoString) : AircraftData F T :=
  { MessageType := TrimSpace (fields.getD 0 [])
    HexIdent := TrimSpace (fields.getD 4 [])
    GeneratedTimestamp :=
      timestampOf lib (trimmedOrEmpty fields 6) (trimmedOrEmpty fields 7) clock.genNow
    LoggedTimestamp :=
      timestampOf lib (trimmedOrEmpty fields 8) (trimmedOrEmpty fields 9) clock.logNow
    TransmissionType := ((optField fields 1).map TrimSpace).getD []
    SessionID := (optField fields 2).bind fun f => Atoi (TrimSpace f)
    AircraftID := (optField fields 3).bind fun f => Atoi (TrimSpace f)
    FlightID := (optField fields 5).bind fun f => Atoi (TrimSpace f)
    Callsign := ((optField fields 10).map TrimSpace).getD []
    Altitude := (optField fields 11).bind fun f => Atoi (TrimSpace f)
    GroundSpeed := (optField fields 12).bind fun f => lib.ParseFloat (TrimSpace f)
    Track := (optField fields 13).bind fun f => lib.ParseFloat (TrimSpace f)
    Latitude := (optField fields 14).bind fun f => lib.ParseFloat (TrimSpace f)
    Longitude := (optField fields 15).bind fun f => lib.ParseFloat (TrimSpace f)
    VerticalRate := (optField fields 16).bind fun f => Atoi (TrimSpace f)
    Squawk := ((optField fields 17).map TrimSpace).getD []
    Alert := (optField fields 18).map flagOf
    Emergency := (optField fields 19).map flagOf
    SPI := (optField fields 20).map flagOf
    IsOnGround := (optField fields 21).map flagOf }

/-- The fields of a raw line: `strings.Split(strings.TrimSpace(line), ",")`. -/
def fieldsOf (line : GoString) : List GoString :=
  Split (TrimSpace line)

/-- The error of `ParseSBS1Message`; it carries the offending line, as the Go error
text does. -/
inductive ParseError where
  | tooShort (line : GoString)
deriving DecidableEq

/-- Go `ParseSBS1Message`.  `Except.error e` is `(nil, err)`, `Except.ok none` is
`(nil, nil)`, `Except.ok (some r)` is `(data, nil)`. -/
def ParseSBS1Message {F T : Type} (lib : StdLib F T) (clock : Clock T)
    (line : GoString) : Except ParseError (Option (AircraftData F T)) :=
  let fields := fieldsOf line
  if fields.length < 10 then
    Except.error (ParseError.tooShort line)
  else if TrimSpace (fields.getD 0 []) ≠ msgTag then
    Except.ok none
  else
    Except.ok (some (buildRecord lib clock fields))

/-- Go `strings.Join(fields, ",")`. -/
def Join : List GoString → GoString
  | [] => []
  | [f] => f
  | f :: g :: fs => f ++ ',' :: Join (g :: fs)

/-- The raw line with field `i` emptied: the fields of the line, field `i` replaced by
the empty string, joined by commas again. -/
def emptied (line : GoString) (i : Nat) : GoString :=
  Join ((fieldsOf line).set i [])

/-- The nine optional numeric fields of the record. -/
inductive NumField where
  | sessionID | aircraftID | flightID | altitude | groundSpeed
  | track | latitude | longitude | verticalRate
deriving DecidableEq

/-- Position (from 0, as in `fields[i]`) of a numeric field in the line. -/
def NumField.index : NumField → Nat
  | .sessionID => 2
  | .aircraftID => 3
  | .flightID => 5
  | .altitude => 11
  | .groundSpeed => 12
  | .track => 13
  | .latitude => 14
  | .longitude => 15
  | .verticalRate => 16

/-- Whether the text parses as a number of the kind of the field: `strconv.Atoi` for
the integer fields, `strconv.ParseFloat` for the floating-point ones. -/
def NumField.parses {F T : Type} (lib : StdLib F T) : NumField → GoString → Bool
  | .sessionID, s => (Atoi s).isSome
  | .aircraftID, s => (Atoi s).isSome
  | .flightID, s => (Atoi s).isSome
  | .altitude, s => (Atoi s).isSome
  | .groundSpeed, s => (lib.ParseFloat s).isSome
  | .track, s => (lib.ParseFloat s).isSome
  | .latitude, s => (lib.ParseFloat s).isSome
  | .longitude, s => (lib.ParseFloat s).isSome
  | .verticalRate, s => (Atoi s).isSome

/-- Whether the numeric field is absent (`nil`) in the record. -/
def NumField.isAbsent {F T : Type} : NumField → AircraftData F T → Bool
  | .sessionID, r => r.SessionID.isNone
  | .aircraftID, r => r.AircraftID.isNone
  | .flightID, r => r.FlightID.isNone
  | .altitude, r => r.Altitude.isNone
  | .groundSpeed, r => r.GroundSpeed.isNone
  | .track, r => r.Track.isNone
  | .latitude, r => r.Latitude.isNone
  | .longitude, r => r.Longitude.isNone
  | .verticalRate, r => r.VerticalRate.isNone

/-- The four flag fields of the record. -/
inductive Flag where
  | alert | emergency | spi | onGround
deriving DecidableEq

/-- Position (from 0, as in `fields[i]`) of a flag field in the line. -/
def Flag.index : Flag → Nat
  | .alert => 18
  | .emergency => 19
  | .spi => 20
  | .onGround => 21

/-- The flag in the record. -/
def Flag.value {F T : Type} : Flag → AircraftData F T → Option Bool
  | .alert, r => r.Alert
  | .emergency, r => r.Emergency
  | .spi, r => r.SPI
  | .onGround, r => r.IsOnGround

/-- The record with both timestamps overwritten. -/
def withTimestamps {F T : Type} (g l : T) (r : AircraftData F T) : AircraftData F T :=
  { r with GeneratedTimestamp := g, LoggedTimestamp := l }

/-- The date and time fields at positions `i` and `j` are both non-empty after
trimming and `time.Parse` accepts them. -/
def timestampParses {F T : Type} (lib : StdLib F T) (fields : List GoString)
    (i j : Nat) : Prop :=
  trimmedOrEmpty fields i ≠ [] ∧ trimmedOrEmpty fields j ≠ [] ∧
    (lib.ParseTime (trimmedOrEmpty fields i ++ ' ' :: trimmedOrEmpty fields j)).isSome = true

instance {F T : Type} (lib : StdLib F T) (fields : List GoString) (i j : Nat) :
    Decidable (timestampParses lib fields i j) := by
  unfold timestampParses
  infer_instance

/-! ## Configuration (`config/config.go`) -/

/-- The process environment: the value of a variable, if it is set. -/
abbrev Environ := GoString → Option GoString

/-- Go `getEnv`: the value of the variable, the default when it is not set. -/
def getEnv (env : Environ) (key defaultVal : GoString) : GoString :=
  match env key with
  | some value => value
  | none => defaultVal

/-- Go `getEnvAsInt`: the integer value of the variable; the default when it is not
set, empty, or not accepted by `strconv.Atoi`.  Zero and negative values pass. -/
def getEnvAsInt (env : Environ) (key : GoString) (defaultVal : Int) : Int :=
  let strVal := getEnv env key []
  if strVal = [] then defaultVal
  else
    match Atoi strVal with
    | some intVal => intVal
    | none => defaultVal

/-- Go `defaultBatchSize`. -/
def defaultBatchSize : Int := 50

/-- Go `defaultBatchInterval`, 5 seconds in nanoseconds. -/
def defaultBatchInterval : Int := 5 * 1000000000

/-- The name of the variable `LoadConfig` reads the batch size from. -/
def batchSizeKey : GoString := "BATCH_SIZE".toList

/-! ## The batcher (`parseAndBatchData` in `main.go`) -/

/-- The settings of `config.Config` that the batcher reads.  Both are Go integers
taken from the environment without validation (`getEnvAsInt`, `getEnvAsDuration`), so
either may be zero or negative; `BatchInterval` is a `time.Duration`, in nanoseconds. -/
structure Config where
  BatchSize : Int
  BatchInterval : Int
deriving DecidableEq

/-- What one iteration of the `select` of `parseAndBatchData` receives. -/
inductive Event (T : Type) where
  /-- The channel `dataChan` delivers a raw line; `clock` holds the readings of `time.Now()`
  while the line is decoded. -/
  | line (raw : GoString) (clock : Clock T)
  /-- The channel `dataChan` is closed and drained (`ok` is false). -/
  | closed
  /-- The channel `ticker.C` delivers a tick. -/
  | tick
  /-- The channel `flushChan` is ready. -/
  | flush
  /-- The channel `doneChan` is closed. -/
  | done
deriving DecidableEq

/-- The state of `parseAndBatchData`: the open batch, the batches sent on `batchChan`
so far (oldest first), the number of `ticker.Reset` calls so far, and whether the
loop is still running (it has not returned). -/
structure Batcher (F T : Type) where
  batch : List (AircraftData F T)
  sent : List (List (AircraftData F T))
  resets : Nat
  running : Bool
deriving DecidableEq

/-- The final flush of the `doneChan` case and of the closed-`dataChan` case: the open
batch is sent if it is not empty, and the function returns. -/
def finalFlush {F T : Type} (s : Batcher F T) : Batcher F T :=
  if s.batch.length > 0 then { s with sent := s.sent ++ [s.batch], running := false }
  else { s with running := false }

/-- The flush of the `ticker.C` case and of the `flushChan` case: the open batch is
sent if it is not empty and a new empty batch is opened. -/
def flushOpen {F T : Type} (s : Batcher F T) : Batcher F T :=
  if s.batch.length > 0 then { s with sent := s.sent ++ [s.batch], batch := [] }
  else s

/-- One iteration of the `for`/`select` loop of `parseAndBatchData`. -/
def step {F T : Type} (cfg : Config) (lib : StdLib F T) (s : Batcher F T) :
    Event T → Batcher F T
  | .done => finalFlush s
  | .closed => finalFlush s
  | .line raw clock =>
    match ParseSBS1Message lib clock raw with
    | .error _ => s
    | .ok none => s
    | .ok (some data) =>
      let batch := s.batch ++ [data]
      if (batch.length : Int) ≥ cfg.BatchSize then
        { s with sent := s.sent ++ [batch], batch := [], resets := s.resets + 1 }
      else { s with batch := batch }
  | .tick => flushOpen s
  | .flush => flushOpen s

/-- The loop of `parseAndBatchData` over the events its `select` receives, in order;
once the function has returned no further event is received. -/
def runLoop {F T : Type} (cfg : Config) (lib : StdLib F T) :
    List (Event T) → Batcher F T → Batcher F T
  | [], s => s
  | ev :: evs, s => if s.running then runLoop cfg lib evs (step cfg lib s ev) else s

/-- The state in which `parseAndBatchData` enters its loop: an empty open batch. -/
def Batcher.init {F T : Type} : Batcher F T :=
  { batch := [], sent := [], resets := 0, running := true }

/-- Size in bytes of one `models.AircraftData` on a 64-bit platform: five strings of
16 bytes, thirteen pointers of 8 bytes and two `time.Time` of 24 bytes. -/
def recordBytes : Nat := 5 * 16 + 13 * 8 + 2 * 24

/-- Go `runtime.maxAlloc` on the 64-bit platforms: the largest allocation the runtime
accepts, `1 << 48` bytes. -/
def maxAlloc : Nat := 2 ^ 48

/-- Whether `make([]models.AircraftData, 0, n)` returns.  The runtime's `makeslice`
panics ("cap out of range") when the capacity is negative, or when capacity times
element size overflows `uintptr` or exceeds `maxAlloc`.  The product is taken in
unbounded integers: an overflow is a product of `2 ^ 64` or more, which exceeds
`maxAlloc` as well.  Running out of memory below that limit is a fatal error of the
runtime that can strike any allocation and is not modelled. -/
def makeSliceOK (n : Int) : Bool :=
  decide (0 ≤ n ∧ n * (recordBytes : Int) ≤ (maxAlloc : Int))

/-- Whether `parseAndBatchData` reaches its loop: `make` with capacity `BatchSize`
returns and `time.NewTicker`, which panics on a non-positive interval, returns. -/
def Config.starts (cfg : Config) : Bool :=
  makeSliceOK cfg.BatchSize && decide (0 < cfg.BatchInterval)

/-- Go `parseAndBatchData` over the events its `select` receives.  `none` is a panic
before the loop is entered: `make` with a capacity that is negative or beyond the
allocation limit, or `time.NewTicker` with a non-positive interval.  The `make`
calls inside the loop have the same capacity as the first and return as it did.  A
send on `batchChan` is taken to complete (the sink writer keeps receiving);
`Pipeline` below models the queue itself. -/
def parseAndBatchData {F T : Type} (cfg : Config) (lib : StdLib F T)
    (events : List (Event T)) : Option (Batcher F T) :=
  if cfg.starts = true then some (runLoop cfg lib events Batcher.init)
  else none

/-- The record a line event contributes: the record decoded from its line, if any. -/
def recordOf {F T : Type} (lib : StdLib F T) : Event T → Option (AircraftData F T)
  | .line raw clock =>
    match ParseSBS1Message lib clock raw with
    | .ok (some data) => some data
    | _ => none
  | _ => none

/-- The records decoded from the lines among the events, in arrival order. -/
def recordsOf {F T : Type} (lib : StdLib F T) (events : List (Event T)) :
    List (AircraftData F T) :=
  events.filterMap (recordOf lib)

/-- An event that neither closes the input nor signals shutdown: a line, a timer
tick or a flush request. -/
def Event.isInput {T : Type} : Event T → Bool
  | .line _ _ => true
  | .tick => true
  | .flush => true
  | .closed => false
  | .done => false

/-- The event of a line with the clock readings of its decoding. -/
def lineEvent {T : Type} (l : GoString × Clock T) : Event T :=
  Event.line l.1 l.2

/-- The bound kept by the loop: the open batch is below the size limit and every
batch sent is non-empty and within the limit, the limit being the batch size or 1. -/
def WithinLimit {F T : Type} (cfg : Config) (s : Batcher F T) : Prop :=
  (s.batch.length : Int) < max cfg.BatchSize 1 ∧
    ∀ b ∈ s.sent, b ≠ [] ∧ (b.length : Int) ≤ max cfg.BatchSize 1

/-! ## Batcher and sink writer together (`batchWriter`, `Start` in `main.go`) -/

/-- Capacity of `batchChan` (`make(chan []models.AircraftData, 10)`). -/
def batchChanCap : Nat := 10

/-- The batcher and the sink writer around `batchChan`.  The queue holds the batches
sent and not yet received, `batcher.sent.drop received`; it is closed once the
batcher has returned.  `written` lists the batches passed to `WriteBatch`, `shutdown`
tells whether `Start` has closed `doneChan` and `flushChan`. -/
structure Pipeline (F T : Type) where
  batcher : Batcher F T
  received : Nat
  written : List (List (AircraftData F T))
  writerRunning : Bool
  shutdown : Bool
deriving DecidableEq

/-- The batches waiting in `batchChan`. -/
def Pipeline.queue {F T : Type} (p : Pipeline F T) : List (List (AircraftData F T)) :=
  p.batcher.sent.drop p.received

/-- The case that the `select` of `batchWriter` takes. -/
inductive WriterCase where
  /-- The case `<-d.doneChan`. -/
  | done
  /-- The case `batch, ok := <-d.batchChan`. -/
  | recv
deriving DecidableEq

/-- A choice of the scheduler: which goroutine runs next and which ready case its
`select` takes. -/
inductive Choice (T : Type) where
  /-- The goroutine of `Start` closes `doneChan` and `flushChan`. -/
  | shutdown
  /-- The batcher runs; its `select` takes the case of the event. -/
  | batcher (ev : Event T)
  /-- The sink writer runs; its `select` takes the case. -/
  | writer (c : WriterCase)
deriving DecidableEq

/-- Whether the batcher's `select` can take the case of the event: `doneChan` and
`flushChan` are ready only once `Start` has closed them (nothing ever sends on them);
lines, closure of `dataChan` and ticks come from outside. -/
def Event.ready {T : Type} (shutdown : Bool) : Event T → Bool
  | .done => shutdown
  | .flush => shutdown
  | _ => true

/-- One iteration of the loop of Go `batchWriter`, for the case its `select` takes;
`none` when that case is not ready.  `doneChan` closed: return.  A batch received:
it is passed to `WriteBatch` (whose outcome only goes to the error channel).
`batchChan` closed and drained: return. -/
def batchWriter {F T : Type} (p : Pipeline F T) : WriterCase → Option (Pipeline F T)
  | .done =>
    if p.writerRunning ∧ p.shutdown = true then some { p with writerRunning := false }
    else none
  | .recv =>
    if p.writerRunning then
      match p.queue with
      | b :: _ => some { p with received := p.received + 1, written := p.written ++ [b] }
      | [] => if p.batcher.running then none else some { p with writerRunning := false }
    else none

/-- One scheduling step; `none` when the chosen case is not ready or the send on
`batchChan` it leads to would block on a full queue. -/
def Pipeline.step {F T : Type} (cfg : Config) (lib : StdLib F T) (p : Pipeline F T) :
    Choice T → Option (Pipeline F T)
  | .shutdown => if p.shutdown then none else some { p with shutdown := true }
  | .batcher ev =>
    if p.batcher.running ∧ ev.ready p.shutdown = true then
      let b := Dump1090.step cfg lib p.batcher ev
      if b.sent.length > p.batcher.sent.length ∧ p.queue.length ≥ batchChanCap then none
      else some { p with batcher := b }
    else none
  | .writer c => batchWriter p c

/-- A schedule: the choices taken in order; `none` if one of them cannot be taken. -/
def Pipeline.run {F T : Type} (cfg : Config) (lib : StdLib F T) :
    List (Choice T) → Pipeline F T → Option (Pipeline F T)
  | [], p => some p
  | c :: cs, p =>
    match p.step cfg lib c with
    | some p' => Pipeline.run cfg lib cs p'
    | none => none

/-- The pipeline before shutdown with the batcher in state `b`, the queue empty (all
batches sent have been received) and the writer waiting in its `select`. -/
def Pipeline.drained {F T : Type} (b : Batcher F T)
    (written : List (List (AircraftData F T))) : Pipeline F T :=
  { batcher := b, received := b.sent.length, written := written,
    writerRunning := true, shutdown := false }

/-! ## The source reader (`connectToDump1090`, `readData` in `main.go`) -/

/-- The errors the reader sends on `errorChan`: the two errors that
`connectToDump1090` returns. -/
inductive ReaderError where
  /-- The error "max connection retries (n) exceeded". -/
  | maxRetriesExceeded (maxRetries : Int)
  /-- The error "shutdown initiated during dump1090 connection attempt". -/
  | shutdownDuringConnect
deriving DecidableEq

/-- Where the reader goroutine is waiting for its environment. -/
inductive ReaderLoc where
  /-- In `connectToDump1090`, calling `net.Dial`, with the current value of `retries`. -/
  | dialing (retries : Nat)
  /-- In the `select` of `connectToDump1090`, after a failed dial. -/
  | connectWait (retries : Nat)
  /-- In the `select` of `readData`, after an error of `connectToDump1090` was sent
  on `errorChan`. -/
  | errorWait
  /-- In `scanner.Scan()`, on an open connection. -/
  | scanning
  /-- The function `readData` has returned. -/
  | stopped
deriving DecidableEq

/-- The case that the `select` inside the scanner loop takes. -/
inductive ScanCase where
  /-- The case `<-d.doneChan`; `closeFails` tells whether the deferred `conn.Close()`
  returns an error. -/
  | done (closeFails : Bool)
  /-- The case `d.dataChan <- scanner.Text()`. -/
  | sent
  /-- The case `default`: the line is dropped. -/
  | dropped
deriving DecidableEq

/-- What the reader receives from its environment at the points where it waits. -/
inductive ReaderEvent where
  /-- The call `net.Dial` returns an error. -/
  | dialFailed
  /-- The call `net.Dial` returns a connection. -/
  | dialConnected
  /-- A `select` takes `<-time.After(d.config.ConnectRetryDelay)`. -/
  | delayElapsed
  /-- A `select` takes `<-d.doneChan`. -/
  | doneSeen
  /-- The call `scanner.Scan()` returns true with the line `raw`, and the `select`
  takes the case `c`. -/
  | scanned (raw : GoString) (c : ScanCase)
  /-- The call `scanner.Scan()` returns false (end of stream or scan error);
  `closeFails` tells whether `conn.Close()` returns an error, `againFails` whether
  the deferred `conn.Close()` that follows such an error returns one too. -/
  | scanEnded (closeFails againFails : Bool)
  /-- The goroutine of `Start` sets `d.running = false` and closes `doneChan`. -/
  | shutdown
deriving DecidableEq

/-- The state of the reader goroutine: where it is, the number of `net.Dial` calls
made, the errors sent on `errorChan` and the lines sent on `dataChan` (oldest
first), the number of lines dropped, the flag `d.running`, whether `doneChan` is
closed, whether `d.conn` is set, and whether `dataChan` has been closed. -/
structure Reader where
  loc : ReaderLoc
  dials : Nat
  errors : List ReaderError
  lines : List GoString
  dropped : Nat
  running : Bool
  doneClosed : Bool
  connOpen : Bool
  dataClosed : Bool
deriving DecidableEq

/-- The reader when `Start` has just launched `readData`: `d.running` is true,
`d.conn` is nil, so the loop calls `connectToDump1090`, which sets `retries := 0`
and dials. -/
def Reader.init : Reader :=
  { loc := .dialing 0, dials := 0, errors := [], lines := [], dropped := 0,
    running := true, doneClosed := false, connOpen := false, dataClosed := false }

/-- What one step inside `connectToDump1090` leads to. -/
inductive ConnectStep where
  /-- The dial failed and the limit is not exceeded: wait in the `select`. -/
  | wait (retries : Nat)
  /-- The retry delay elapsed: `continue` to the next `net.Dial`. -/
  | dial (retries : Nat)
  /-- The function returns nil: connected. -/
  | connected
  /-- The function returns the error. -/
  | failed (err : ReaderError)
deriving DecidableEq

/-- Go `connectToDump1090`, one step: a failed dial increments `retries` and, when
`ConnectMaxRetries > 0 && retries > ConnectMaxRetries`, returns the max-retries
error, otherwise waits for the retry delay or for `doneChan`; `none` when the event
is not one the function is waiting for. -/
def connectToDump1090 (connectMaxRetries : Int) (doneClosed : Bool) :
    ReaderLoc → ReaderEvent → Option ConnectStep
  | .dialing r, .dialFailed =>
    let retries := r + 1
    if connectMaxRetries > 0 ∧ (retries : Int) > connectMaxRetries then
      some (.failed (.maxRetriesExceeded connectMaxRetries))
    else some (.wait retries)
  | .dialing _, .dialConnected => some .connected
  | .connectWait r, .delayElapsed => some (.dial r)
  | .connectWait _, .doneSeen =>
    if doneClosed then some (.failed .shutdownDuringConnect) else none
  | _, _ => none

/-- The number of `net.Dial` calls an event stands for. -/
def ReaderEvent.dialCount : ReaderEvent → Nat
  | .dialFailed => 1
  | .dialConnected => 1
  | _ => 0

/-- The deferred function of `readData`, run when it returns: an open connection is
closed, and unless that fails `dataChan` is closed. -/
def Reader.finish (s : Reader) (closeFails : Bool) : Reader :=
  if s.connOpen ∧ closeFails = true then { s with loc := .stopped }
  else { s with loc := .stopped, dataClosed := true }

/-- The head of the loop `for d.running` of `readData`: the function returns when
the flag is false; otherwise it connects if `d.conn` is nil and scans if not. -/
def Reader.loopHead (s : Reader) : Reader :=
  if s.running then
    if s.connOpen then { s with loc := .scanning } else { s with loc := .dialing 0 }
  else s.finish false

/-- Go `readData`, one step on an event from the environment; `none` when the event
is not one the reader is waiting for where it is. -/
def readData (connectMaxRetries : Int) (s : Reader) (ev : ReaderEvent) : Option Reader :=
  match ev with
  | .shutdown =>
    if s.doneClosed then none else some { s with running := false, doneClosed := true }
  | _ =>
    match s.loc with
    | .stopped => none
    | .errorWait =>
      match ev with
      | .delayElapsed => some s.loopHead
      | .doneSeen => if s.doneClosed then some (s.finish false) else none
      | _ => none
    | .scanning =>
      match ev with
      | .scanned raw .sent => some { s with lines := s.lines ++ [raw] }
      | .scanned _ .dropped =>
        if s.doneClosed then none else some { s with dropped := s.dropped + 1 }
      | .scanned _ (.done closeFails) =>
        if s.doneClosed then some (s.finish closeFails) else none
      | .scanEnded closeFails againFails =>
        if closeFails then some (s.finish againFails)
        else some (Reader.loopHead { s with connOpen := false })
      | _ => none
    | loc =>
      match connectToDump1090 connectMaxRetries s.doneClosed loc ev with
      | some (.wait r) => some { s with loc := .connectWait r, dials := s.dials + ev.dialCount }
      | some (.dial r) => some { s with loc := .dialing r }
      | some .connected =>
        some { s with loc := .scanning, dials := s.dials + ev.dialCount, connOpen := true }
      | some (.failed e) =>
        some { s with loc := .errorWait, dials := s.dials + ev.dialCount,
                      errors := s.errors ++ [e] }
      | none => none

/-- The reader over the events it receives, in order; `none` if one of them is not
one the reader is waiting for. -/
def runReader (connectMaxRetries : Int) : List ReaderEvent → Reader → Option Reader
  | [], s => some s
  | ev :: evs, s =>
    match readData connectMaxRetries s ev with
    | some s' => runReader connectMaxRetries evs s'
    | none => none

/-- The events of `k` failed dial attempts, each followed by the end of the retry
delay, with no shutdown: what a target that refuses every connection produces. -/
def failedAttempts : Nat → List ReaderEvent
  | 0 => []
  | k + 1 => .dialFailed :: .delayElapsed :: failedAttempts k

/-- The reader while no connection has been made and no shutdown signalled: at
location `loc`, after `dials` dial attempts and with `errors` reported. -/
def Reader.retrying (loc : ReaderLoc) (dials : Nat) (errors : List ReaderError) : Reader :=
  { loc := loc, dials := dials, errors := errors, lines := [], dropped := 0,
    running := true, doneClosed := false, connOpen := false, dataClosed := false }

/-- The reader is still trying to connect: it is dialing or waiting to dial again,
has no connection, has sent no line, and has neither stopped nor closed `dataChan`. -/
def Reader.isRetrying (s : Reader) : Prop :=
  s.running = true ∧ s.doneClosed = false ∧ s.connOpen = false ∧
    s.dataClosed = false ∧ s.lines = [] ∧
    (s.loc = .errorWait ∨ ∃ r, s.loc = .dialing r ∨ s.loc = .connectWait r)

/-! ## Sample data -/

/-- A sample standard library for concrete evaluations: a float is kept as its text
and accepted when it is non-empty and made of digits, a sign and a point; a time is
kept as its text and accepted when it has the 19 characters of the layout. -/
def sampleLib : StdLib GoString GoString where
  ParseFloat := fun s =>
    if s ≠ [] ∧ s.all (fun c => c.isDigit || c == '.' || c == '-') then some s else none
  ParseTime := fun s => if s.length = 19 then some s else none

/-- A sample clock. -/
def sampleClock : Clock GoString := ⟨"now-1".toList, "now-2".toList⟩

/-- Another sample clock. -/
def laterClock : Clock GoString := ⟨"now-3".toList, "now-4".toList⟩

/-- The line of the end-to-end example of the specification. -/
def exampleLine : GoString :=
  "MSG,3,1,1,ABCDEF,1,2024/01/01,00:00:00,2024/01/01,00:00:01,,35000,250.5,180.0,51.5,-0.1,0,,0,0,0,0".toList

/-- The example line with an altitude that is not a number. -/
def badAltitudeLine : GoString :=
  "MSG,3,1,1,ABCDEF,1,2024/01/01,00:00:00,2024/01/01,00:00:01,,35k,250.5,180.0,51.5,-0.1,0,,0,0,0,0".toList

/-- The example line with an alert field (position 18) that is one space. -/
def blankFlagLine : GoString :=
  "MSG,3,1,1,ABCDEF,1,2024/01/01,00:00:00,2024/01/01,00:00:01,,35000,250.5,180.0,51.5,-0.1,0,, ,0,0,0".toList

/-- A data line of ten fields without date and time texts. -/
def undatedLine : GoString :=
  "MSG,3,1,1,ABCDEF,1,,,,".toList

/-- A short line whose first field is the data tag. -/
def shortMsgLine : GoString := "MSG,3,1,1,ABCDEF".toList

/-- A status line of the feed: ten fields, first field not the data tag. -/
def statusLine : GoString :=
  "STA,,1,1,ABCDEF,1,2024/01/01,00:00:00,2024/01/01,00:00:01".toList

/-- The default settings of `config.go`: 50 records, 5 seconds. -/
def defaultConfig : Config :=
  { BatchSize := defaultBatchSize, BatchInterval := defaultBatchInterval }

/-- Settings with batch size 1. -/
def unitConfig : Config := { BatchSize := 1, BatchInterval := defaultBatchInterval }

/-- Settings with batch size 3. -/
def tripleConfig : Config := { BatchSize := 3, BatchInterval := defaultBatchInterval }

/-- Three data lines with the clock readings of their decoding. -/
def threeLines : List (GoString × Clock GoString) :=
  [(exampleLine, sampleClock), (undatedLine, laterClock), (badAltitudeLine, sampleClock)]

/-- An environment that sets `BATCH_SIZE=9223372036854775807`. -/
def hugeEnviron : Environ :=
  fun key => if key = batchSizeKey then some "9223372036854775807".toList else none

/-- The settings loaded from `hugeEnviron`. -/
def hugeConfig : Config :=
  { BatchSize := getEnvAsInt hugeEnviron batchSizeKey defaultBatchSize,
    BatchInterval := defaultBatchInterval }

/-- An environment that sets `BATCH_SIZE=0`. -/
def zeroEnviron : Environ :=
  fun key => if key = batchSizeKey then some ['0'] else none

/-- The settings loaded from `zeroEnviron`. -/
def zeroConfig : Config :=
  { BatchSize := getEnvAsInt zeroEnviron batchSizeKey defaultBatchSize,
    BatchInterval := defaultBatchInterval }

/-- The batcher under the default settings after one decoded line: one record in the
open batch, nothing sent. -/
def oneRecordState : Batcher GoString GoString :=
  runLoop defaultConfig sampleLib [Event.line exampleLine sampleClock] Batcher.init

/-! ## Lemmas on the string functions -/

theorem TrimSpace_nil : TrimSpace [] = [] := rfl

theorem Split_ne_nil (s : GoString) : Split s ≠ [] := by
  cases s with
  | nil => simp [Split]
  | cons c cs =>
    unfold Split
    split_ifs
    · simp
    · split <;> simp

theorem isSome_false_iff {α : Type} (o : Option α) : o.isSome = false ↔ o = none := by
  cases o <;> simp

theorem optField_eq_some {fields : List GoString} {i : Nat} {txt : GoString}
    (h : fields[i]? = some txt) (hne : txt ≠ []) : optField fields i = some txt := by
  simp [optField, h, hne]

theorem optField_set_self (fields : List GoString) (i : Nat) :
    optField (fields.set i []) i = none := by
  unfold optField
  by_cases h : i < fields.length
  · simp [List.getElem?_set, h]
  · simp [List.getElem?_set, h]

theorem optField_set_ne (fields : List GoString) {i j : Nat} (h : i ≠ j) (v : GoString) :
    optField (fields.set i v) j = optField fields j := by
  unfold optField
  rw [List.getElem?_set_ne h]

theorem trimmedOrEmpty_set_ne (fields : List GoString) {i j : Nat} (h : i ≠ j)
    (v : GoString) : trimmedOrEmpty (fields.set i v) j = trimmedOrEmpty fields j := by
  unfold trimmedOrEmpty
  rw [List.getElem?_set_ne h]

theorem getD_set_ne (fields : List GoString) {i j : Nat} (h : i ≠ j) (v : GoString) :
    (fields.set i v).getD j [] = fields.getD j [] := by
  simp [List.getD_eq_getElem?_getD, List.getElem?_set_ne h]

/-- Emptying a numeric field whose text does not parse leaves the record unchanged. -/
theorem buildRecord_set_unparsed {F T : Type} (lib : StdLib F T) (clock : Clock T)
    (fields : List GoString) (nf : NumField) (txt : GoString)
    (hf : fields[nf.index]? = some txt) (hne : txt ≠ [])
    (hbad : nf.parses lib (TrimSpace txt) = false) :
    buildRecord lib clock (fields.set nf.index []) = buildRecord lib clock fields := by
  have ho := optField_eq_some hf hne
  cases nf <;>
    simp only [NumField.index, NumField.parses, isSome_false_iff] at ho hbad ⊢ <;>
    simp [buildRecord, optField_set_self, optField_set_ne, trimmedOrEmpty_set_ne,
      getD_set_ne, ho, hbad]

/-- A numeric field whose text does not parse is absent in the record. -/
theorem buildRecord_unparsed_absent {F T : Type} (lib : StdLib F T) (clock : Clock T)
    (fields : List GoString) (nf : NumField) (txt : GoString)
    (hf : fields[nf.index]? = some txt) (hne : txt ≠ [])
    (hbad : nf.parses lib (TrimSpace txt) = false) :
    nf.isAbsent (buildRecord lib clock fields) = true := by
  have ho := optField_eq_some hf hne
  cases nf <;>
    simp only [NumField.index, NumField.parses, isSome_false_iff] at ho hbad ⊢ <;>
    simp [buildRecord, NumField.isAbsent, ho, hbad]

/-! ## Splitting and joining -/

theorem trimLeft_eq_dropWhile (s : GoString) : trimLeft s = s.dropWhile isSpace := by
  induction s with
  | nil => rfl
  | cons c cs ih =>
    by_cases h : isSpace c = true
    · simp [trimLeft, List.dropWhile, h, ih]
    · simp [trimLeft, List.dropWhile, h]

theorem TrimSpace_eq (s : GoString) :
    TrimSpace s = (s.dropWhile isSpace).rdropWhile isSpace := by
  simp [TrimSpace, trimRight, trimLeft_eq_dropWhile, List.rdropWhile]

/-- A trimmed text starts with no white space. -/
theorem TrimSpace_dropWhile (s : GoString) :
    (TrimSpace s).dropWhile isSpace = TrimSpace s := by
  rw [TrimSpace_eq]
  set x := s.dropWhile isSpace with hx
  have hxx : x.dropWhile isSpace = x := by rw [hx, List.dropWhile_idempotent]
  obtain ⟨t, ht⟩ : x.rdropWhile isSpace <+: x := List.rdropWhile_prefix _ _
  cases hy : x.rdropWhile isSpace with
  | nil => rfl
  | cons c cs =>
    rw [hy] at ht
    rw [← ht] at hxx
    by_cases hc : isSpace c = true
    · exfalso
      have hlen := congrArg List.length hxx
      have hle := (List.dropWhile_suffix isSpace (l := cs ++ t)).length_le
      simp [List.dropWhile, hc] at hlen
      simp at hle
      omega
    · simp [List.dropWhile, hc]

/-- A trimmed text ends with no white space. -/
theorem TrimSpace_rdropWhile (s : GoString) :
    (TrimSpace s).rdropWhile isSpace = TrimSpace s := by
  rw [TrimSpace_eq, List.rdropWhile_idempotent]

/-- A text without white space at either end is its own trimmed text. -/
theorem TrimSpace_of_trimmed (s : GoString) (h₁ : s.dropWhile isSpace = s)
    (h₂ : s.rdropWhile isSpace = s) : TrimSpace s = s := by
  rw [TrimSpace_eq, h₁, h₂]

theorem Join_cons (f : GoString) {fs : List GoString} (h : fs ≠ []) :
    Join (f :: fs) = f ++ ',' :: Join fs := by
  cases fs with
  | nil => exact absurd rfl h
  | cons g gs => rfl

theorem Join_append_singleton (g : GoString) :
    ∀ {fs : List GoString}, fs ≠ [] → Join (fs ++ [g]) = Join fs ++ ',' :: g
  | [], h => absurd rfl h
  | [f], _ => rfl
  | f :: f' :: fs, _ => by
    have ih := @Join_append_singleton g (f' :: fs) (by simp)
    rw [List.cons_append, Join_cons f (by simp), ih, Join_cons f (by simp)]
    simp

theorem Split_no_comma (f : GoString) (hf : ',' ∉ f) : Split f = [f] := by
  induction f with
  | nil => rfl
  | cons c cs ih =>
    have hc : c ≠ ',' := fun h => hf (by simp [h])
    have hcs : ',' ∉ cs := fun h => hf (by simp [h])
    simp [Split, hc, ih hcs]

theorem Split_append_comma (f : GoString) (hf : ',' ∉ f) (s : GoString) :
    Split (f ++ ',' :: s) = f :: Split s := by
  induction f with
  | nil => simp [Split]
  | cons c cs ih =>
    have hc : c ≠ ',' := fun h => hf (by simp [h])
    have hcs : ',' ∉ cs := fun h => hf (by simp [h])
    simp [Split, hc, ih hcs]

/-- Splitting undoes joining when no field holds a comma. -/
theorem Split_Join : ∀ (fs : List GoString), fs ≠ [] → (∀ f ∈ fs, ',' ∉ f) →
    Split (Join fs) = fs
  | [], h, _ => absurd rfl h
  | [f], _, hc => Split_no_comma f (hc f (by simp))
  | f :: g :: fs, _, hc => by
    rw [Join_cons f (by simp), Split_append_comma f (hc f (by simp)),
      Split_Join (g :: fs) (by simp) (fun x hx => hc x (by simp [List.mem_cons] at hx ⊢; tauto))]

/-- Joining undoes splitting. -/
theorem Join_Split (s : GoString) : Join (Split s) = s := by
  induction s with
  | nil => rfl
  | cons c cs ih =>
    by_cases hc : c = ','
    · simp only [Split, hc, if_true]
      rw [Join_cons [] (Split_ne_nil cs), ih]
      rfl
    · simp only [Split, hc, if_false]
      cases hs : Split cs with
      | nil => exact absurd hs (Split_ne_nil cs)
      | cons f fs =>
        rw [hs] at ih
        cases fs with
        | nil => simpa [Join] using ih
        | cons g gs =>
          rw [Join_cons _ (by simp)] at ih ⊢
          simp [← ih]

/-- No field of a split text holds a comma. -/
theorem Split_mem_no_comma (s : GoString) : ∀ f ∈ Split s, ',' ∉ f := by
  induction s with
  | nil => simp [Split]
  | cons c cs ih =>
    by_cases hc : c = ','
    · simp only [Split, hc, if_true]
      intro f hf
      rcases List.mem_cons.1 hf with h | h
      · simp [h]
      · exact ih f h
    · simp only [Split, hc, if_false]
      cases hs : Split cs with
      | nil => exact absurd hs (Split_ne_nil cs)
      | cons g gs =>
        rw [hs] at ih
        intro f hf
        rcases List.mem_cons.1 hf with h | h
        · subst h
          have := ih g (by simp)
          simp only [List.mem_cons, not_or]
          exact ⟨fun h => hc h.symm, this⟩
        · exact ih f (by simp [h])

theorem dropWhile_cons_self {c : Char} {l : GoString} :
    (c :: l).dropWhile isSpace = c :: l ↔ isSpace c = false := by
  rw [List.dropWhile_eq_self_iff]
  simp

theorem rdropWhile_append_cons (a : GoString) (c : Char) (g : GoString) :
    (a ++ c :: g).rdropWhile isSpace = a ++ c :: g ↔
      (c :: g).rdropWhile isSpace = c :: g := by
  rw [List.rdropWhile_eq_self_iff, List.rdropWhile_eq_self_iff]
  constructor
  · intro h hl
    have := h (by simp)
    rwa [List.getLast_append_of_ne_nil] at this
  · intro h hl
    rw [List.getLast_append_of_ne_nil (by simp)]
    exact h (by simp)

/-- The text with one field emptied keeps no white space at its start: the first
field is not the emptied one and is not empty. -/
theorem Join_set_dropWhile (fs : List GoString) (i : Nat) (hlen : 2 ≤ fs.length)
    (h0 : fs.getD 0 [] ≠ []) (hi : 1 ≤ i)
    (h : (Join fs).dropWhile isSpace = Join fs) :
    (Join (fs.set i [])).dropWhile isSpace = Join (fs.set i []) := by
  match fs, i with
  | [], _ => simp at hlen
  | [_], _ => simp at hlen
  | f :: g :: rest, 0 => omega
  | f :: g :: rest, j + 1 =>
    cases f with
    | nil => simp at h0
    | cons c cs =>
      rw [List.set_cons_succ, Join_cons _ (by simp)]
      rw [Join_cons _ (by simp)] at h
      rw [List.cons_append, dropWhile_cons_self] at h ⊢
      exact h

/-- The text with one field emptied keeps no white space at its end. -/
theorem Join_set_rdropWhile (fs : List GoString) (i : Nat) (hlen : 2 ≤ fs.length)
    (h : (Join fs).rdropWhile isSpace = Join fs) :
    (Join (fs.set i [])).rdropWhile isSpace = Join (fs.set i []) := by
  have hne : fs ≠ [] := by
    intro h0
    simp [h0] at hlen
  obtain ⟨pre, g, rfl⟩ : ∃ pre g, fs = pre ++ [g] :=
    ⟨fs.dropLast, fs.getLast hne, (List.dropLast_append_getLast hne).symm⟩
  have hpre : pre ≠ [] := by
    intro h0
    simp [h0] at hlen
  rw [Join_append_singleton g hpre, rdropWhile_append_cons] at h
  by_cases hlt : i < pre.length
  · rw [List.set_append_left _ _ hlt, Join_append_singleton g (by simpa using hpre),
      rdropWhile_append_cons]
    exact h
  · rw [List.set_append_right _ _ (by omega)]
    cases hk : i - pre.length with
    | zero =>
      rw [List.set_cons_zero, Join_append_singleton [] hpre, rdropWhile_append_cons,
        List.rdropWhile_eq_self_iff]
      intro _
      simp only [List.getLast_singleton]
      decide
    | succ k =>
      rw [List.set_cons_succ, List.set_nil, Join_append_singleton g hpre,
        rdropWhile_append_cons]
      exact h

/-- The fields of the line with field `i` emptied are the fields of the line with
field `i` replaced by the empty string, for every position but the first of a line
of at least two fields whose first field is not empty. -/
theorem fieldsOf_emptied (line : GoString) (i : Nat) (hlen : 2 ≤ (fieldsOf line).length)
    (h0 : (fieldsOf line).getD 0 [] ≠ []) (hi : 1 ≤ i) :
    fieldsOf (emptied line i) = (fieldsOf line).set i [] := by
  have hj : Join (fieldsOf line) = TrimSpace line := Join_Split _
  have h₁ : (Join (fieldsOf line)).dropWhile isSpace = Join (fieldsOf line) := by
    rw [hj, TrimSpace_dropWhile]
  have h₂ : (Join (fieldsOf line)).rdropWhile isSpace = Join (fieldsOf line) := by
    rw [hj, TrimSpace_rdropWhile]
  have ht : TrimSpace (emptied line i) = emptied line i :=
    TrimSpace_of_trimmed _ (Join_set_dropWhile _ i hlen h0 hi h₁)
      (Join_set_rdropWhile _ i hlen h₂)
  unfold fieldsOf at *
  rw [ht]
  unfold emptied fieldsOf
  apply Split_Join
  · simp [Split_ne_nil]
  · intro f hf
    rcases List.mem_or_eq_of_mem_set hf with h | h
    · exact Split_mem_no_comma _ f h
    · simp [h]

/-! ## Lemmas on the parser -/

/-- A line of at least 10 fields whose first field is the data tag decodes to the
record built from its fields. -/
theorem ParseSBS1Message_of_msg {F T : Type} (lib : StdLib F T) (clock : Clock T)
    (line : GoString) (hlen : 10 ≤ (fieldsOf line).length)
    (htag : TrimSpace ((fieldsOf line).getD 0 []) = msgTag) :
    ParseSBS1Message lib clock line =
      Except.ok (some (buildRecord lib clock (fieldsOf line))) := by
  have h : ¬ (fieldsOf line).length < 10 := by omega
  simp only [ParseSBS1Message]
  rw [if_neg h, if_neg (not_not.2 htag)]

/-- A line decodes to a record only if it has at least 10 fields and its first field
is the data tag, and the record is the one built from its fields. -/
theorem ParseSBS1Message_eq_record {F T : Type} {lib : StdLib F T} {clock : Clock T}
    {line : GoString} {r : AircraftData F T}
    (h : ParseSBS1Message lib clock line = Except.ok (some r)) :
    10 ≤ (fieldsOf line).length ∧ TrimSpace ((fieldsOf line).getD 0 []) = msgTag ∧
      r = buildRecord lib clock (fieldsOf line) := by
  simp only [ParseSBS1Message] at h
  split_ifs at h with h₁ h₂
  · cases h
  · have hr := Option.some.inj (Except.ok.inj h)
    exact ⟨by omega, not_not.1 h₂, hr.symm⟩

/-- The flag read at position `i`, in terms of the raw text of the field. -/
theorem flag_field_cases (fields : List GoString) (i : Nat) :
    ((optField fields i).map flagOf = some true ↔
        ∃ txt, fields[i]? = some txt ∧ TrimSpace txt = ['1']) ∧
      ((optField fields i).map flagOf = some false ↔
        ∃ txt, fields[i]? = some txt ∧ txt ≠ [] ∧ TrimSpace txt ≠ ['1']) ∧
      ((optField fields i).map flagOf = none ↔
        (fields[i]? = none ∨ fields[i]? = some [])) := by
  unfold optField
  cases h : fields[i]? with
  | none => simp
  | some txt =>
    by_cases ht : txt = []
    · subst ht
      simp [TrimSpace_nil]
    · simp [ht, flagOf]

/-- A timestamp whose texts are non-empty and parse does not depend on the clock. -/
theorem timestampOf_of_parses {F T : Type} (lib : StdLib F T) (fields : List GoString)
    (i j : Nat) (h : timestampParses lib fields i j) (now now' : T) :
    timestampOf lib (trimmedOrEmpty fields i) (trimmedOrEmpty fields j) now =
      timestampOf lib (trimmedOrEmpty fields i) (trimmedOrEmpty fields j) now' := by
  obtain ⟨h₁, h₂, h₃⟩ := h
  unfold timestampOf
  rw [if_pos ⟨h₁, h₂⟩, if_pos ⟨h₁, h₂⟩]
  cases hp : lib.ParseTime (trimmedOrEmpty fields i ++ ' ' :: trimmedOrEmpty fields j) with
  | none => simp [hp] at h₃
  | some t => rfl

/-- A timestamp whose texts are empty or do not parse is the clock reading. -/
theorem timestampOf_of_not_parses {F T : Type} (lib : StdLib F T)
    (fields : List GoString) (i j : Nat) (h : ¬ timestampParses lib fields i j) (now : T) :
    timestampOf lib (trimmedOrEmpty fields i) (trimmedOrEmpty fields j) now = now := by
  unfold timestampOf
  split_ifs with hc
  · cases hp : lib.ParseTime (trimmedOrEmpty fields i ++ ' ' :: trimmedOrEmpty fields j) with
    | none => rfl
    | some t => exact absurd ⟨hc.1, hc.2, by simp [hp]⟩ h
  · rfl

/-! ## Lemmas on the batcher -/

theorem runLoop_stopped {F T : Type} (cfg : Config) (lib : StdLib F T)
    (evs : List (Event T)) (s : Batcher F T) (h : s.running = false) :
    runLoop cfg lib evs s = s := by
  cases evs with
  | nil => rfl
  | cons ev evs => simp [runLoop, h]

theorem runLoop_cons_running {F T : Type} (cfg : Config) (lib : StdLib F T)
    (ev : Event T) (evs : List (Event T)) (s : Batcher F T) (h : s.running = true) :
    runLoop cfg lib (ev :: evs) s = runLoop cfg lib evs (step cfg lib s ev) := by
  simp [runLoop, h]

theorem runLoop_append {F T : Type} (cfg : Config) (lib : StdLib F T)
    (a b : List (Event T)) (s : Batcher F T) :
    runLoop cfg lib (a ++ b) s = runLoop cfg lib b (runLoop cfg lib a s) := by
  induction a generalizing s with
  | nil => rfl
  | cons ev evs ih =>
    by_cases h : s.running = true
    · rw [List.cons_append, runLoop_cons_running _ _ _ _ _ h,
        runLoop_cons_running _ _ _ _ _ h, ih]
    · have h' : s.running = false := by simpa using h
      rw [runLoop_stopped _ _ _ _ h', runLoop_stopped _ _ _ _ h', runLoop_stopped _ _ _ _ h']

/-- The batcher that starts runs its loop from the empty open batch. -/
theorem parseAndBatchData_starts {F T : Type} (cfg : Config) (lib : StdLib F T)
    (events : List (Event T)) (h : cfg.starts = true) :
    parseAndBatchData cfg lib events = some (runLoop cfg lib events Batcher.init) := by
  unfold parseAndBatchData
  rw [if_pos h]

/-- The batcher that does not start panics before its loop. -/
theorem parseAndBatchData_panics {F T : Type} (cfg : Config) (lib : StdLib F T)
    (events : List (Event T)) (h : cfg.starts = false) :
    parseAndBatchData cfg lib events = none := by
  unfold parseAndBatchData
  rw [if_neg]
  simp [h]

/-- A batch size between 0 and the allocation limit and a positive interval let the
batcher start. -/
theorem starts_of_bounds (cfg : Config) (h₀ : 0 ≤ cfg.BatchSize)
    (h₁ : cfg.BatchSize * (recordBytes : Int) ≤ (maxAlloc : Int))
    (h₂ : 0 < cfg.BatchInterval) : cfg.starts = true := by
  simp [Config.starts, makeSliceOK, h₀, h₁, h₂]

/-- Batch size 1 and a positive interval let the batcher start. -/
theorem starts_of_unit (cfg : Config) (h₁ : cfg.BatchSize = 1)
    (h₂ : 0 < cfg.BatchInterval) : cfg.starts = true := by
  apply starts_of_bounds cfg (by omega) _ h₂
  rw [h₁]
  decide

theorem step_line_error {F T : Type} (cfg : Config) (lib : StdLib F T) (s : Batcher F T)
    {raw : GoString} {clock : Clock T} {e : ParseError}
    (hp : ParseSBS1Message lib clock raw = Except.error e) :
    step cfg lib s (Event.line raw clock) = s := by
  simp only [step, hp]

theorem step_line_skip {F T : Type} (cfg : Config) (lib : StdLib F T) (s : Batcher F T)
    {raw : GoString} {clock : Clock T}
    (hp : ParseSBS1Message lib clock raw = Except.ok none) :
    step cfg lib s (Event.line raw clock) = s := by
  simp only [step, hp]

theorem step_line_record {F T : Type} (cfg : Config) (lib : StdLib F T) (s : Batcher F T)
    {raw : GoString} {clock : Clock T} {data : AircraftData F T}
    (hp : ParseSBS1Message lib clock raw = Except.ok (some data)) :
    step cfg lib s (Event.line raw clock) =
      if ((s.batch ++ [data]).length : Int) ≥ cfg.BatchSize then
        { s with sent := s.sent ++ [s.batch ++ [data]], batch := [], resets := s.resets + 1 }
      else { s with batch := s.batch ++ [data] } := by
  simp only [step, hp]

theorem finalFlush_withinLimit {F T : Type} (cfg : Config) (s : Batcher F T)
    (h : WithinLimit cfg s) : WithinLimit cfg (finalFlush s) := by
  obtain ⟨h₁, h₂⟩ := h
  unfold finalFlush
  split_ifs with hb
  · refine ⟨h₁, ?_⟩
    intro b hbm
    rcases List.mem_append.1 hbm with hm | hm
    · exact h₂ b hm
    · rw [List.mem_singleton] at hm
      subst hm
      exact ⟨List.ne_nil_of_length_pos hb, le_of_lt h₁⟩
  · exact ⟨h₁, h₂⟩

theorem flushOpen_withinLimit {F T : Type} (cfg : Config) (s : Batcher F T)
    (h : WithinLimit cfg s) : WithinLimit cfg (flushOpen s) := by
  obtain ⟨h₁, h₂⟩ := h
  unfold flushOpen
  split_ifs with hb
  · refine ⟨?_, ?_⟩
    · simp only [List.length_nil, Nat.cast_zero]
      omega
    · intro b hbm
      rcases List.mem_append.1 hbm with hm | hm
      · exact h₂ b hm
      · rw [List.mem_singleton] at hm
        subst hm
        exact ⟨List.ne_nil_of_length_pos hb, le_of_lt h₁⟩
  · exact ⟨h₁, h₂⟩

theorem step_withinLimit {F T : Type} (cfg : Config) (lib : StdLib F T)
    (s : Batcher F T) (ev : Event T) (h : WithinLimit cfg s) :
    WithinLimit cfg (step cfg lib s ev) := by
  cases ev with
  | done => exact finalFlush_withinLimit cfg s h
  | closed => exact finalFlush_withinLimit cfg s h
  | tick => exact flushOpen_withinLimit cfg s h
  | flush => exact flushOpen_withinLimit cfg s h
  | line raw clock =>
    obtain ⟨h₁, h₂⟩ := h
    cases hp : ParseSBS1Message lib clock raw with
    | error e =>
      rw [step_line_error cfg lib s hp]
      exact ⟨h₁, h₂⟩
    | ok o =>
      cases o with
      | none =>
        rw [step_line_skip cfg lib s hp]
        exact ⟨h₁, h₂⟩
      | some data =>
        rw [step_line_record cfg lib s hp]
        split_ifs with hc
        · refine ⟨?_, ?_⟩
          · simp only [List.length_nil, Nat.cast_zero]
            omega
          · intro b hbm
            rcases List.mem_append.1 hbm with hm | hm
            · exact h₂ b hm
            · rw [List.mem_singleton] at hm
              subst hm
              refine ⟨by simp, ?_⟩
              simp only [List.length_append, List.length_singleton, Nat.cast_add,
                Nat.cast_one] at hc ⊢
              omega
        · refine ⟨?_, h₂⟩
          simp only [List.length_append, List.length_singleton, Nat.cast_add,
            Nat.cast_one, ge_iff_le, not_le] at hc ⊢
          omega

theorem runLoop_withinLimit {F T : Type} (cfg : Config) (lib : StdLib F T)
    (evs : List (Event T)) (s : Batcher F T) (h : WithinLimit cfg s) :
    WithinLimit cfg (runLoop cfg lib evs s) := by
  induction evs generalizing s with
  | nil => exact h
  | cons ev evs ih =>
    unfold runLoop
    split_ifs
    · exact ih _ (step_withinLimit cfg lib s ev h)
    · exact h

theorem init_withinLimit {F T : Type} (cfg : Config) :
    WithinLimit cfg (Batcher.init : Batcher F T) := by
  refine ⟨?_, ?_⟩
  · simp only [Batcher.init, List.length_nil, Nat.cast_zero]
    omega
  · intro b hb
    simp [Batcher.init] at hb

/-- A tick or flush request on an empty open batch changes nothing. -/
theorem flushOpen_of_empty {F T : Type} (s : Batcher F T) (h : s.batch = []) :
    flushOpen s = s := by
  simp [flushOpen, h]

theorem recordOf_line_record {F T : Type} (lib : StdLib F T) {raw : GoString}
    {clock : Clock T} {data : AircraftData F T}
    (hp : ParseSBS1Message lib clock raw = Except.ok (some data)) :
    recordOf lib (Event.line raw clock) = some data := by
  simp only [recordOf, hp]

theorem recordsOf_cons {F T : Type} (lib : StdLib F T) (ev : Event T)
    (evs : List (Event T)) :
    recordsOf lib (ev :: evs) = (recordOf lib ev).toList ++ recordsOf lib evs := by
  unfold recordsOf
  rw [List.filterMap_cons]
  cases recordOf lib ev <;> rfl

/-- Lines that all decode to records and fill the open batch exactly to the batch size
leave one more batch sent, holding the open batch followed by their records. -/
theorem runLoop_fill {F T : Type} (cfg : Config) (lib : StdLib F T) :
    ∀ (lines : List (GoString × Clock T)) (s : Batcher F T), s.running = true →
      lines ≠ [] →
      (∀ l ∈ lines, ∃ r, ParseSBS1Message lib l.2 l.1 = Except.ok (some r)) →
      ((s.batch.length + lines.length : Nat) : Int) = cfg.BatchSize →
      runLoop cfg lib (lines.map lineEvent) s =
        { s with sent := s.sent ++ [s.batch ++ recordsOf lib (lines.map lineEvent)],
                 batch := [], resets := s.resets + 1 }
  | [], _, _, hne, _, _ => absurd rfl hne
  | l :: rest, s, hrun, _, hdec, hN => by
    obtain ⟨r, hr⟩ := hdec l (by simp)
    rw [List.map_cons, runLoop_cons_running _ _ _ _ _ hrun, recordsOf_cons]
    have hstep := step_line_record cfg lib s hr
    have hrec := recordOf_line_record lib hr
    change step cfg lib s (lineEvent l) = _ at hstep
    change recordOf lib (lineEvent l) = _ at hrec
    rw [hstep, hrec]
    cases rest with
    | nil =>
      have hc : ((s.batch ++ [r]).length : Int) ≥ cfg.BatchSize := by
        simp only [List.length_append, List.length_singleton, List.length_cons,
          List.length_nil] at hN ⊢
        omega
      rw [if_pos hc]
      simp [runLoop, recordsOf]
    | cons l' rest' =>
      have hc : ¬ (((s.batch ++ [r]).length : Int) ≥ cfg.BatchSize) := by
        simp only [List.length_append, List.length_singleton, List.length_cons,
          List.length_nil] at hN ⊢
        omega
      rw [if_neg hc]
      have ih := runLoop_fill cfg lib (l' :: rest') { s with batch := s.batch ++ [r] }
        hrun (by simp) (fun x hx => hdec x (by simp [List.mem_cons] at hx ⊢; tauto))
        (by
          simp only [List.length_cons, List.length_append, List.length_singleton,
            List.length_nil] at hN ⊢
          omega)
      rw [ih]
      simp [List.append_assoc]

/-- A line, tick or flush request keeps the loop running and keeps every record: the
batches sent followed by the open batch grow by the record decoded, if any. -/
theorem step_input_conserves {F T : Type} (cfg : Config) (lib : StdLib F T)
    (s : Batcher F T) (ev : Event T) (hrun : s.running = true)
    (hin : ev.isInput = true) :
    (step cfg lib s ev).running = true ∧
      (step cfg lib s ev).sent.flatten ++ (step cfg lib s ev).batch =
        s.sent.flatten ++ s.batch ++ (recordOf lib ev).toList := by
  cases ev with
  | done => simp [Event.isInput] at hin
  | closed => simp [Event.isInput] at hin
  | tick =>
    simp only [step, flushOpen, recordOf]
    split_ifs <;> simp [hrun]
  | flush =>
    simp only [step, flushOpen, recordOf]
    split_ifs <;> simp [hrun]
  | line raw clock =>
    cases hp : ParseSBS1Message lib clock raw with
    | error e =>
      rw [step_line_error cfg lib s hp]
      simp [recordOf, hp, hrun]
    | ok o =>
      cases o with
      | none =>
        rw [step_line_skip cfg lib s hp]
        simp [recordOf, hp, hrun]
      | some data =>
        rw [step_line_record cfg lib s hp, recordOf_line_record lib hp]
        split_ifs <;> simp [hrun]

theorem runLoop_inputs_conserve {F T : Type} (cfg : Config) (lib : StdLib F T)
    (evs : List (Event T)) (s : Batcher F T) (hrun : s.running = true)
    (hin : ∀ ev ∈ evs, ev.isInput = true) :
    (runLoop cfg lib evs s).running = true ∧
      (runLoop cfg lib evs s).sent.flatten ++ (runLoop cfg lib evs s).batch =
        s.sent.flatten ++ s.batch ++ recordsOf lib evs := by
  induction evs generalizing s with
  | nil => simp [runLoop, recordsOf, hrun]
  | cons ev evs ih =>
    obtain ⟨h₁, h₂⟩ := step_input_conserves cfg lib s ev hrun (hin ev (by simp))
    obtain ⟨h₃, h₄⟩ := ih (step cfg lib s ev) h₁ (fun x hx => hin x (by simp [hx]))
    rw [runLoop_cons_running _ _ _ _ _ hrun, recordsOf_cons]
    refine ⟨h₃, ?_⟩
    rw [h₄, h₂]
    simp [List.append_assoc]

theorem finalFlush_sent {F T : Type} (s : Batcher F T) :
    (finalFlush s).running = false ∧
      (finalFlush s).sent = s.sent ++ (if s.batch.length > 0 then [s.batch] else []) := by
  unfold finalFlush
  cases hb : s.batch with
  | nil => simp
  | cons r rs => simp

theorem recordsOf_lines {F T : Type} (lib : StdLib F T) :
    ∀ (lines : List (GoString × Clock T)),
      (∀ l ∈ lines, ∃ r, ParseSBS1Message lib l.2 l.1 = Except.ok (some r)) →
      List.Forall₂ (fun l r => ParseSBS1Message lib l.2 l.1 = Except.ok (some r))
        lines (recordsOf lib (lines.map lineEvent))
  | [], _ => List.Forall₂.nil
  | l :: rest, hdec => by
    obtain ⟨r, hr⟩ := hdec l (by simp)
    have hrec := recordOf_line_record lib hr
    change recordOf lib (lineEvent l) = _ at hrec
    rw [List.map_cons, recordsOf_cons, hrec]
    exact List.Forall₂.cons hr
      (recordsOf_lines lib rest (fun x hx => hdec x (by simp [hx])))

theorem optField_of_lt (fields : List GoString) (i : Nat) (h : i < fields.length) :
    optField fields i =
      if fields.getD i [] = [] then none else some (fields.getD i []) := by
  unfold optField
  rw [List.getD_eq_getElem?_getD, List.getElem?_eq_getElem h]
  rfl

theorem Atoi_nil : Atoi [] = none := rfl

/-- The decoded fields of a line of 22 fields with data tag, in terms of its texts. -/
theorem full_line_fields {F T : Type} (lib : StdLib F T) (clock : Clock T)
    (line : GoString) (alt : Int) (gs lat lon : F)
    (hlen : (fieldsOf line).length = 22)
    (htag : TrimSpace ((fieldsOf line).getD 0 []) = msgTag)
    (halt : Atoi (TrimSpace ((fieldsOf line).getD 11 [])) = some alt)
    (hgs₀ : (fieldsOf line).getD 12 [] ≠ [])
    (hgs : lib.ParseFloat (TrimSpace ((fieldsOf line).getD 12 [])) = some gs)
    (hlat₀ : (fieldsOf line).getD 14 [] ≠ [])
    (hlat : lib.ParseFloat (TrimSpace ((fieldsOf line).getD 14 [])) = some lat)
    (hlon₀ : (fieldsOf line).getD 15 [] ≠ [])
    (hlon : lib.ParseFloat (TrimSpace ((fieldsOf line).getD 15 [])) = some lon) :
    ∃ r, ParseSBS1Message lib clock line = Except.ok (some r) ∧
      r.HexIdent = TrimSpace ((fieldsOf line).getD 4 []) ∧
      r.Altitude = some alt ∧ r.GroundSpeed = some gs ∧
      r.Latitude = some lat ∧ r.Longitude = some lon ∧
      ((fieldsOf line).getD 10 [] = [] → r.Callsign = []) ∧
      ((fieldsOf line).getD 17 [] = [] → r.Squawk = []) := by
  have halt₀ : (fieldsOf line).getD 11 [] ≠ [] := by
    intro h
    rw [h, TrimSpace_nil, Atoi_nil] at halt
    cases halt
  refine ⟨_, ParseSBS1Message_of_msg lib clock line (by omega) htag, rfl, ?_, ?_, ?_, ?_,
    ?_, ?_⟩
  · simp only [buildRecord, optField_of_lt (fieldsOf line) 11 (by omega), if_neg halt₀, Option.some_bind,
      halt]
  · simp only [buildRecord, optField_of_lt (fieldsOf line) 12 (by omega), if_neg hgs₀, Option.some_bind,
      hgs]
  · simp only [buildRecord, optField_of_lt (fieldsOf line) 14 (by omega), if_neg hlat₀, Option.some_bind,
      hlat]
  · simp only [buildRecord, optField_of_lt (fieldsOf line) 15 (by omega), if_neg hlon₀, Option.some_bind,
      hlon]
  · intro h
    simp only [buildRecord, optField_of_lt (fieldsOf line) 10 (by omega), if_pos h, Option.map_none',
      Option.getD_none]
  · intro h
    simp only [buildRecord, optField_of_lt (fieldsOf line) 17 (by omega), if_pos h, Option.map_none',
      Option.getD_none]

/-! ## Lemmas on the source reader -/

theorem failedAttempts_add (a b : Nat) :
    failedAttempts (a + b) = failedAttempts a ++ failedAttempts b := by
  induction a with
  | zero => simp [failedAttempts]
  | succ a ih =>
    rw [Nat.succ_add]
    simp [failedAttempts, ih]

/-- A failed dial below the limit, then the retry delay: one more dial attempt made,
`retries` one higher. -/
theorem runReader_attempt_below (m : Nat) (r d : Nat) (e : List ReaderError)
    (rest : List ReaderEvent) (h : r + 1 ≤ m) :
    runReader m (.dialFailed :: .delayElapsed :: rest) (Reader.retrying (.dialing r) d e) =
      runReader m rest (Reader.retrying (.dialing (r + 1)) (d + 1) e) := by
  have hc : ¬ ((m : Int) < (r : Int) + 1) := by omega
  simp [runReader, readData, connectToDump1090, Reader.retrying, ReaderEvent.dialCount, hc]

/-- A failed dial at the limit, then the retry delay of `readData`: the error is
reported and `connectToDump1090` is called again, with `retries` back at 0. -/
theorem runReader_attempt_at_limit (m : Nat) (d : Nat) (e : List ReaderError)
    (rest : List ReaderEvent) (hm : 1 ≤ m) :
    runReader m (.dialFailed :: .delayElapsed :: rest) (Reader.retrying (.dialing m) d e) =
      runReader m rest
        (Reader.retrying (.dialing 0) (d + 1) (e ++ [.maxRetriesExceeded m])) := by
  have hc : 0 < m := by omega
  simp [runReader, readData, connectToDump1090, Reader.retrying, ReaderEvent.dialCount, hc,
    Reader.loopHead]

theorem runReader_attempts_below (m : Nat) (e : List ReaderError)
    (rest : List ReaderEvent) :
    ∀ (i r d : Nat), r + i ≤ m →
      runReader m (failedAttempts i ++ rest) (Reader.retrying (.dialing r) d e) =
        runReader m rest (Reader.retrying (.dialing (r + i)) (d + i) e)
  | 0, r, d, _ => by simp [failedAttempts]
  | i + 1, r, d, h => by
    rw [failedAttempts, List.cons_append, List.cons_append,
      runReader_attempt_below m r d e _ (by omega),
      runReader_attempts_below m e rest i (r + 1) (d + 1) (by omega)]
    have h₁ : r + 1 + i = r + (i + 1) := by omega
    have h₂ : d + 1 + i = d + (i + 1) := by omega
    rw [h₁, h₂]

/-- One round of `connectToDump1090` against a target that refuses every connection:
`m + 1` dial attempts, one error reported, and the next round begins. -/
theorem runReader_round (m : Nat) (hm : 1 ≤ m) (d : Nat) (e : List ReaderError)
    (rest : List ReaderEvent) :
    runReader m (failedAttempts (m + 1) ++ rest) (Reader.retrying (.dialing 0) d e) =
      runReader m rest
        (Reader.retrying (.dialing 0) (d + (m + 1)) (e ++ [.maxRetriesExceeded m])) := by
  rw [failedAttempts_add, List.append_assoc,
    runReader_attempts_below m e _ m 0 d (by omega)]
  simp only [failedAttempts, List.cons_append, List.nil_append, Nat.zero_add]
  rw [runReader_attempt_at_limit m (d + m) e rest hm]
  rfl

theorem runReader_rounds (m : Nat) (hm : 1 ≤ m) (rest : List ReaderEvent) :
    ∀ (j d : Nat) (e : List ReaderError),
      runReader m (failedAttempts (j * (m + 1)) ++ rest) (Reader.retrying (.dialing 0) d e) =
        runReader m rest
          (Reader.retrying (.dialing 0) (d + j * (m + 1))
            (e ++ List.replicate j (.maxRetriesExceeded m)))
  | 0, d, e => by simp [failedAttempts]
  | j + 1, d, e => by
    have hj : (j + 1) * (m + 1) = (m + 1) + j * (m + 1) := by ring
    rw [hj, failedAttempts_add, List.append_assoc, runReader_round m hm,
      runReader_rounds m hm rest j]
    have hd : d + (m + 1) + j * (m + 1) = d + ((m + 1) + j * (m + 1)) := by omega
    rw [hd, List.append_assoc, List.replicate_succ]
    rfl

/-- Without a successful dial and without shutdown, a step keeps the reader trying. -/
theorem readData_isRetrying (m : Int) (s s' : Reader) (ev : ReaderEvent)
    (hs : s.isRetrying) (h₁ : ev ≠ .dialConnected) (h₂ : ev ≠ .shutdown)
    (hstep : readData m s ev = some s') : s'.isRetrying := by
  obtain ⟨hrun, hdone, hconn, hdata, hlines, hloc⟩ := hs
  rcases hloc with hl | ⟨r, hl | hl⟩
  · cases ev <;>
      simp [readData, hl, hdone, Reader.loopHead, hrun, hconn] at hstep <;>
      first
        | exact absurd rfl h₁
        | exact absurd rfl h₂
        | (subst hstep
           simp [Reader.isRetrying, hrun, hdone, hconn, hdata, hlines])
  · cases ev <;>
      simp [readData, connectToDump1090, hl, hdone] at hstep <;>
      first
        | exact absurd rfl h₁
        | exact absurd rfl h₂
        | (split_ifs at hstep with hc <;>
           simp at hstep <;>
           subst hstep <;>
           simp [Reader.isRetrying, hrun, hdone, hconn, hdata, hlines])
  · cases ev <;>
      simp [readData, connectToDump1090, hl, hdone] at hstep <;>
      first
        | exact absurd rfl h₁
        | exact absurd rfl h₂
        | (subst hstep
           simp [Reader.isRetrying, hrun, hdone, hconn, hdata, hlines])

theorem runReader_isRetrying (m : Int) :
    ∀ (evs : List ReaderEvent) (s s' : Reader), s.isRetrying →
      (∀ ev ∈ evs, ev ≠ .dialConnected ∧ ev ≠ .shutdown) →
      runReader m evs s = some s' → s'.isRetrying
  | [], s, s', hs, _, h => by
    simp only [runReader, Option.some.injEq] at h
    exact h ▸ hs
  | ev :: evs, s, s', hs, hev, h => by
    simp only [runReader] at h
    cases hstep : readData m s ev with
    | none => simp [hstep] at h
    | some s₁ =>
      rw [hstep] at h
      exact runReader_isRetrying m evs s₁ s'
        (readData_isRetrying m s s₁ ev hs (hev ev (by simp)).1 (hev ev (by simp)).2 hstep)
        (fun x hx => hev x (by simp [hx])) h

theorem init_isRetrying : Reader.init.isRetrying :=
  ⟨rfl, rfl, rfl, rfl, rfl, Or.inr ⟨0, Or.inl rfl⟩⟩

theorem runReader_dial_below (m : Nat) (r d : Nat) (e : List ReaderError)
    (h : r + 1 ≤ m) :
    runReader m [.dialFailed] (Reader.retrying (.dialing r) d e) =
      some (Reader.retrying (.connectWait (r + 1)) (d + 1) e) := by
  have hc : ¬ ((m : Int) < (r : Int) + 1) := by omega
  simp [runReader, readData, connectToDump1090, Reader.retrying, ReaderEvent.dialCount, hc]

theorem runReader_dial_at_limit (m : Nat) (d : Nat) (e : List ReaderError) (hm : 1 ≤ m) :
    runReader m [.dialFailed] (Reader.retrying (.dialing m) d e) =
      some (Reader.retrying .errorWait (d + 1) (e ++ [.maxRetriesExceeded m])) := by
  have hc : 0 < m := by omega
  simp [runReader, readData, connectToDump1090, Reader.retrying, ReaderEvent.dialCount, hc]

/-! ## The decoder: claims of the specification -/

/-- C1: a raw line that, trimmed and split on commas, has fewer than 10 fields makes
`ParseSBS1Message` return an error and no record, whatever its first field is. -/
theorem short_line_is_error {F T : Type} (lib : StdLib F T) (clock : Clock T)
    (line : GoString) (h : (fieldsOf line).length < 10) :
    ParseSBS1Message lib clock line = Except.error (ParseError.tooShort line) := by
  simp [ParseSBS1Message, h]

/-- Witness of C1: a line of five fields whose first field is the data tag. -/
theorem short_line_is_error_witness :
    (fieldsOf shortMsgLine).length < 10 ∧
      ParseSBS1Message sampleLib sampleClock shortMsgLine =
        Except.error (ParseError.tooShort shortMsgLine) :=
  ⟨by decide, short_line_is_error sampleLib sampleClock shortMsgLine (by decide)⟩

/-- C2, counterexample: the first field of the empty line is not the data tag, and
`ParseSBS1Message` returns an error on it, not "no record". -/
theorem empty_line_is_error_not_skipped :
    TrimSpace ((fieldsOf []).getD 0 []) ≠ msgTag ∧
      ParseSBS1Message sampleLib sampleClock [] ≠ Except.ok none ∧
      ParseSBS1Message sampleLib sampleClock [] = Except.error (ParseError.tooShort []) := by
  refine ⟨by decide, ?_, rfl⟩
  intro h
  cases h

/-- C2, amended: a raw line of at least 10 fields whose first field, trimmed, is not
the data tag `MSG` makes `ParseSBS1Message` return "no record" and no error. -/
theorem non_msg_line_is_skipped {F T : Type} (lib : StdLib F T) (clock : Clock T)
    (line : GoString) (hlen : 10 ≤ (fieldsOf line).length)
    (htag : TrimSpace ((fieldsOf line).getD 0 []) ≠ msgTag) :
    ParseSBS1Message lib clock line = Except.ok none := by
  have h : ¬ (fieldsOf line).length < 10 := by omega
  simp only [ParseSBS1Message]
  rw [if_neg h, if_pos htag]

/-- Witness of the amended C2: a status line of ten fields. -/
theorem non_msg_line_is_skipped_witness :
    10 ≤ (fieldsOf statusLine).length ∧
      TrimSpace ((fieldsOf statusLine).getD 0 []) ≠ msgTag ∧
      ParseSBS1Message sampleLib sampleClock statusLine = Except.ok none :=
  ⟨by decide, by decide,
    non_msg_line_is_skipped sampleLib sampleClock statusLine (by decide) (by decide)⟩

/-- C3: for a line of at least 10 fields with first field `MSG` in which an optional
numeric field holds non-empty text that does not parse as a number,
`ParseSBS1Message` returns a record and no error, the field is absent in the record,
and the record equals, in every field, the record decoded at the same clock reading
from the same line with that field emptied (`emptied`, whose fields are those of the
line with the one field replaced by the empty string), and from any other line with
those fields. -/
theorem malformed_numeric_field_is_omitted {F T : Type} (lib : StdLib F T)
    (clock : Clock T) (line : GoString) (nf : NumField) (txt : GoString)
    (hlen : 10 ≤ (fieldsOf line).length)
    (htag : TrimSpace ((fieldsOf line).getD 0 []) = msgTag)
    (hf : (fieldsOf line)[nf.index]? = some txt) (hne : txt ≠ [])
    (hbad : nf.parses lib (TrimSpace txt) = false) :
    ∃ r, ParseSBS1Message lib clock line = Except.ok (some r) ∧
      nf.isAbsent r = true ∧
      fieldsOf (emptied line nf.index) = (fieldsOf line).set nf.index [] ∧
      ParseSBS1Message lib clock (emptied line nf.index) = Except.ok (some r) ∧
      ∀ line', fieldsOf line' = (fieldsOf line).set nf.index [] →
        ParseSBS1Message lib clock line' = Except.ok (some r) := by
  have hidx : 1 ≤ nf.index := by cases nf <;> simp [NumField.index]
  have h0 : (fieldsOf line).getD 0 [] ≠ [] := by
    intro h
    rw [h] at htag
    exact absurd htag (by decide)
  have hall : ∀ line', fieldsOf line' = (fieldsOf line).set nf.index [] →
      ParseSBS1Message lib clock line' =
        Except.ok (some (buildRecord lib clock (fieldsOf line))) := by
    intro line' hl
    have hlen' : 10 ≤ (fieldsOf line').length := by rw [hl]; simpa using hlen
    have htag' : TrimSpace ((fieldsOf line').getD 0 []) = msgTag := by
      rw [hl, getD_set_ne _ (by omega)]
      exact htag
    rw [ParseSBS1Message_of_msg lib clock line' hlen' htag', hl,
      buildRecord_set_unparsed lib clock _ nf txt hf hne hbad]
  have hemp := fieldsOf_emptied line nf.index (by omega) h0 hidx
  exact ⟨buildRecord lib clock (fieldsOf line),
    ParseSBS1Message_of_msg lib clock line hlen htag,
    buildRecord_unparsed_absent lib clock _ nf txt hf hne hbad,
    hemp, hall _ hemp, hall⟩

/-- Witness of C3: the example line with the altitude text `35k`. -/
theorem malformed_numeric_field_is_omitted_witness :
    ∃ r, ParseSBS1Message sampleLib sampleClock badAltitudeLine = Except.ok (some r) ∧
      NumField.altitude.isAbsent r = true ∧
      fieldsOf (emptied badAltitudeLine NumField.altitude.index) =
        (fieldsOf badAltitudeLine).set NumField.altitude.index [] ∧
      ParseSBS1Message sampleLib sampleClock (emptied badAltitudeLine NumField.altitude.index)
        = Except.ok (some r) ∧
      ∀ line', fieldsOf line' = (fieldsOf badAltitudeLine).set NumField.altitude.index [] →
        ParseSBS1Message sampleLib sampleClock line' = Except.ok (some r) :=
  malformed_numeric_field_is_omitted sampleLib sampleClock badAltitudeLine
    NumField.altitude ['3', '5', 'k'] (by decide) (by decide) (by decide) (by decide)
    (by decide)

/-- C4, counterexample: in `blankFlagLine` the field at position 18 is one space, so
its trimmed text is empty, and yet the alert flag of the decoded record is present
(and false): "absent exactly when the trimmed text is empty or the field is missing"
fails. -/
theorem blank_flag_field_is_present_false :
    ∃ r, ParseSBS1Message sampleLib sampleClock blankFlagLine = Except.ok (some r) ∧
      (fieldsOf blankFlagLine)[Flag.alert.index]? = some [' '] ∧
      TrimSpace [' '] = [] ∧
      Flag.alert.value r = some false ∧
      ¬ (Flag.alert.value r = none ↔
          ((fieldsOf blankFlagLine)[Flag.alert.index]? = none ∨
            ∃ txt, (fieldsOf blankFlagLine)[Flag.alert.index]? = some txt ∧
              TrimSpace txt = [])) := by
  refine ⟨buildRecord sampleLib sampleClock (fieldsOf blankFlagLine), rfl, by decide,
    by decide, by decide, ?_⟩
  intro h
  have hr : (fieldsOf blankFlagLine)[Flag.alert.index]? = none ∨
      ∃ txt, (fieldsOf blankFlagLine)[Flag.alert.index]? = some txt ∧ TrimSpace txt = [] :=
    Or.inr ⟨[' '], by decide, by decide⟩
  have := h.2 hr
  revert this
  decide

/-- C4, amended: for every line decoded to a record and each of the four flag fields
(positions 18 to 21, counted from 0), the flag is present and true exactly when the
trimmed field text equals `1`; present and false exactly when the field text is
non-empty before trimming and its trimmed text differs from `1`; absent exactly when
the field text is empty before trimming or the line has no field at that position. -/
theorem flag_fields_follow_raw_text {F T : Type} (lib : StdLib F T) (clock : Clock T)
    (line : GoString) (r : AircraftData F T) (fl : Flag)
    (h : ParseSBS1Message lib clock line = Except.ok (some r)) :
    (fl.value r = some true ↔
        ∃ txt, (fieldsOf line)[fl.index]? = some txt ∧ TrimSpace txt = ['1']) ∧
      (fl.value r = some false ↔
        ∃ txt, (fieldsOf line)[fl.index]? = some txt ∧ txt ≠ [] ∧ TrimSpace txt ≠ ['1']) ∧
      (fl.value r = none ↔
        ((fieldsOf line)[fl.index]? = none ∨ (fieldsOf line)[fl.index]? = some [])) := by
  obtain ⟨_, _, rfl⟩ := ParseSBS1Message_eq_record h
  cases fl <;> exact flag_field_cases (fieldsOf line) _

/-- Witness of the amended C4: the alert flag of the line with a blank alert field. -/
theorem flag_fields_follow_raw_text_witness :
    (Flag.alert.value (buildRecord sampleLib sampleClock (fieldsOf blankFlagLine))
        = some false ↔
      ∃ txt, (fieldsOf blankFlagLine)[Flag.alert.index]? = some txt ∧ txt ≠ [] ∧
        TrimSpace txt ≠ ['1']) :=
  (flag_fields_follow_raw_text sampleLib sampleClock blankFlagLine
    (buildRecord sampleLib sampleClock (fieldsOf blankFlagLine)) Flag.alert rfl).2.1

/-- C6, counterexample: a data line without date and time texts decodes to different
records at two different clock readings. -/
theorem undated_line_depends_on_clock :
    ParseSBS1Message sampleLib sampleClock undatedLine ≠
      ParseSBS1Message sampleLib laterClock undatedLine := by
  intro h
  have h' := congrArg
    (fun x => (Except.toOption x).join.map fun r => r.GeneratedTimestamp) h
  revert h'
  decide

/-- C6, amended: for every line and any two clock readings the two results of
`ParseSBS1Message` have the same outcome (error, no record, record) and, for a
record, equal values in every field other than the generated and logged timestamps;
the two results are equal outright when the date and time texts of both timestamps
are non-empty and accepted by `time.Parse`; a timestamp whose texts are empty or
rejected is the clock reading of the call. -/
theorem clock_enters_only_fallback_timestamps {F T : Type} (lib : StdLib F T)
    (line : GoString) (c₁ c₂ : Clock T) :
    (∀ g l : T,
        (ParseSBS1Message lib c₁ line).map (Option.map (withTimestamps g l)) =
          (ParseSBS1Message lib c₂ line).map (Option.map (withTimestamps g l))) ∧
      (timestampParses lib (fieldsOf line) 6 7 → timestampParses lib (fieldsOf line) 8 9 →
        ParseSBS1Message lib c₁ line = ParseSBS1Message lib c₂ line) ∧
      (∀ r, ParseSBS1Message lib c₁ line = Except.ok (some r) →
        (¬ timestampParses lib (fieldsOf line) 6 7 → r.GeneratedTimestamp = c₁.genNow) ∧
        (¬ timestampParses lib (fieldsOf line) 8 9 → r.LoggedTimestamp = c₁.logNow)) := by
  refine ⟨?_, ?_, ?_⟩
  · intro g l
    simp only [ParseSBS1Message]
    split_ifs
    · rfl
    · rfl
    · rfl
  · intro hg hl
    simp only [ParseSBS1Message]
    split_ifs
    · rfl
    · rfl
    · have e₁ := timestampOf_of_parses lib (fieldsOf line) 6 7 hg c₁.genNow c₂.genNow
      have e₂ := timestampOf_of_parses lib (fieldsOf line) 8 9 hl c₁.logNow c₂.logNow
      simp only [buildRecord, e₁, e₂]
  · intro r hr
    obtain ⟨_, _, rfl⟩ := ParseSBS1Message_eq_record hr
    exact ⟨fun h => timestampOf_of_not_parses lib _ 6 7 h _,
      fun h => timestampOf_of_not_parses lib _ 8 9 h _⟩

/-- Witness of the amended C6: the example line, whose timestamps parse, decodes to
the same record at two clock readings. -/
theorem clock_enters_only_fallback_timestamps_witness :
    ParseSBS1Message sampleLib sampleClock exampleLine =
      ParseSBS1Message sampleLib laterClock exampleLine :=
  (clock_enters_only_fallback_timestamps sampleLib exampleLine sampleClock laterClock).2.1
    (by decide) (by decide)

/-! ## The batcher: claims of the specification -/

/-- C7, counterexample: `BATCH_SIZE=0` is loaded as batch size 0, and with it one
decoded line makes the batcher hand over a batch of one record, more than the
configured batch size. -/
theorem zero_batch_size_exceeds_cap :
    getEnvAsInt zeroEnviron batchSizeKey defaultBatchSize = 0 ∧
      ∃ s b, parseAndBatchData zeroConfig sampleLib [Event.line exampleLine sampleClock]
        = some s ∧ b ∈ s.sent ∧ b.length = 1 ∧ ¬ ((b.length : Int) ≤ zeroConfig.BatchSize) :=
  ⟨by decide,
    runLoop zeroConfig sampleLib [Event.line exampleLine sampleClock] Batcher.init,
    [buildRecord sampleLib sampleClock (fieldsOf exampleLine)], by decide, by decide, rfl,
    by decide⟩

/-- C7, amended: for every configuration and every sequence of batcher events (raw
line arrival, timer tick, flush request, input-channel closure, shutdown signal)
processed from an empty open batch, every batch handed to the batch queue is
non-empty and holds at most as many records as the larger of the batch size and 1:
at most the batch size when that is 1 or more, one record when it is 0.  The
batcher hands over these batches when it starts (`make` and `time.NewTicker`
return) and panics before its loop, handing over nothing, when it does not.  A timer
tick or flush request on an empty open batch emits nothing and leaves the state
unchanged. -/
theorem sent_batches_nonempty_and_capped {F T : Type} (cfg : Config) (lib : StdLib F T)
    (events : List (Event T)) :
    (cfg.starts = true →
        ∃ s, parseAndBatchData cfg lib events = some s ∧
          ∀ b ∈ s.sent, b ≠ [] ∧ (b.length : Int) ≤ max cfg.BatchSize 1) ∧
      (cfg.starts = false → parseAndBatchData cfg lib events = none) ∧
      (∀ b ∈ (runLoop cfg lib events Batcher.init).sent,
        b ≠ [] ∧ (b.length : Int) ≤ max cfg.BatchSize 1) ∧
      ∀ s : Batcher F T, s.batch = [] →
        step cfg lib s Event.tick = s ∧ step cfg lib s Event.flush = s :=
  ⟨fun h => ⟨_, parseAndBatchData_starts cfg lib events h,
      (runLoop_withinLimit cfg lib events _ (init_withinLimit cfg)).2⟩,
    parseAndBatchData_panics cfg lib events,
    (runLoop_withinLimit cfg lib events _ (init_withinLimit cfg)).2,
    fun s h => ⟨flushOpen_of_empty s h, flushOpen_of_empty s h⟩⟩

/-- Witness of the amended C7: default settings with a tick, a line, a tick and a
flush request; and the batch size `9223372036854775807`, at which `make` panics. -/
theorem sent_batches_nonempty_and_capped_witness :
    (∃ s, parseAndBatchData defaultConfig sampleLib
          [Event.tick, Event.line exampleLine sampleClock, Event.tick, Event.flush] = some s ∧
        ∀ b ∈ s.sent, b ≠ [] ∧ (b.length : Int) ≤ max defaultConfig.BatchSize 1) ∧
      parseAndBatchData hugeConfig sampleLib [Event.line exampleLine sampleClock] = none :=
  ⟨(sent_batches_nonempty_and_capped defaultConfig sampleLib
      [Event.tick, Event.line exampleLine sampleClock, Event.tick, Event.flush]).1
      (by decide),
    (sent_batches_nonempty_and_capped hugeConfig sampleLib
      [Event.line exampleLine sampleClock]).2.1 (by decide)⟩

/-- C8: for every batch size `N ≥ 1`, the loop of the batcher, from an empty open
batch, fed exactly `N` lines that each decode to a record, with no tick or flush
request in between, emits exactly one batch; it holds the `N` records of those lines
in input order, and the open batch is empty afterwards.  This is what
`parseAndBatchData` returns when it starts (`make` with capacity `N` and
`time.NewTicker` return); when it does not start it panics before any line is fed. -/
theorem full_batch_is_flushed_in_order {F T : Type} (cfg : Config) (lib : StdLib F T)
    (lines : List (GoString × Clock T))
    (hsz : 1 ≤ cfg.BatchSize)
    (hN : (lines.length : Int) = cfg.BatchSize)
    (hdec : ∀ l ∈ lines, ∃ r, ParseSBS1Message lib l.2 l.1 = Except.ok (some r)) :
    (cfg.starts = true →
        ∃ s, parseAndBatchData cfg lib (lines.map lineEvent) = some s ∧
          s.sent = [recordsOf lib (lines.map lineEvent)] ∧
          s.batch = [] ∧ s.running = true) ∧
      (cfg.starts = false → parseAndBatchData cfg lib (lines.map lineEvent) = none) ∧
      (runLoop cfg lib (lines.map lineEvent) Batcher.init).sent =
        [recordsOf lib (lines.map lineEvent)] ∧
      (runLoop cfg lib (lines.map lineEvent) Batcher.init).batch = [] ∧
      (runLoop cfg lib (lines.map lineEvent) Batcher.init).running = true ∧
      (recordsOf lib (lines.map lineEvent)).length = lines.length ∧
      List.Forall₂ (fun l r => ParseSBS1Message lib l.2 l.1 = Except.ok (some r))
        lines (recordsOf lib (lines.map lineEvent)) := by
  have hne : lines ≠ [] := by
    intro h
    rw [h] at hN
    simp only [List.length_nil, Nat.cast_zero] at hN
    omega
  have hfill := runLoop_fill cfg lib lines Batcher.init rfl hne hdec
    (by simpa [Batcher.init] using hN)
  have hall := recordsOf_lines lib lines hdec
  have hsent : (runLoop cfg lib (lines.map lineEvent) Batcher.init).sent =
      [recordsOf lib (lines.map lineEvent)] := by
    rw [hfill]
    simp [Batcher.init]
  have hbatch : (runLoop cfg lib (lines.map lineEvent) Batcher.init).batch = [] := by
    rw [hfill]
  have hrun : (runLoop cfg lib (lines.map lineEvent) Batcher.init).running = true := by
    rw [hfill]
    rfl
  exact ⟨fun h => ⟨_, parseAndBatchData_starts cfg lib _ h, hsent, hbatch, hrun⟩,
    parseAndBatchData_panics cfg lib _, hsent, hbatch, hrun, hall.length_eq.symm, hall⟩

/-- Witness of C8: batch size 3 and three different data lines; the one batch holds
their three records in the order of the lines. -/
theorem full_batch_is_flushed_in_order_witness :
    (∃ s, parseAndBatchData tripleConfig sampleLib (threeLines.map lineEvent) = some s ∧
        s.sent = [recordsOf sampleLib (threeLines.map lineEvent)] ∧
        s.batch = [] ∧ s.running = true) ∧
      recordsOf sampleLib (threeLines.map lineEvent) =
        [buildRecord sampleLib sampleClock (fieldsOf exampleLine),
          buildRecord sampleLib laterClock (fieldsOf undatedLine),
          buildRecord sampleLib sampleClock (fieldsOf badAltitudeLine)] :=
  ⟨(full_batch_is_flushed_in_order tripleConfig sampleLib threeLines (by decide) (by decide)
      (fun l hl => by
        simp only [threeLines, List.mem_cons, List.mem_singleton, List.not_mem_nil,
          or_false] at hl
        rcases hl with h | h | h <;> rw [h] <;> exact ⟨_, rfl⟩)).1 (by decide),
    by decide⟩

/-- C9: for every sequence of raw lines delivered to the loop of the batcher,
interleaved with any timer ticks and flush requests and ended by closure of the input
channel, the concatenation of the batches emitted, in emission order, is the sequence
of records decoded from those lines in arrival order; what closure adds is one final
batch holding the non-empty remainder, the batcher has then stopped, and whatever
comes after the closure emits nothing.  This is what `parseAndBatchData` returns when
it starts (`make` and `time.NewTicker` return); when it does not start it panics
before any line is delivered. -/
theorem closure_flushes_remainder {F T : Type} (cfg : Config) (lib : StdLib F T)
    (pre post : List (Event T))
    (hpre : ∀ ev ∈ pre, ev.isInput = true) :
    (cfg.starts = true →
        ∃ s₁ s, parseAndBatchData cfg lib pre = some s₁ ∧
          parseAndBatchData cfg lib (pre ++ Event.closed :: post) = some s ∧
          s.sent.flatten = recordsOf lib pre ∧
          s.sent = s₁.sent ++ (if s₁.batch.length > 0 then [s₁.batch] else []) ∧
          s.running = false ∧
          parseAndBatchData cfg lib (pre ++ [Event.closed]) = some s) ∧
      (cfg.starts = false →
        parseAndBatchData cfg lib (pre ++ Event.closed :: post) = none) ∧
      (runLoop cfg lib (pre ++ Event.closed :: post) Batcher.init).sent.flatten =
        recordsOf lib pre ∧
      (runLoop cfg lib (pre ++ Event.closed :: post) Batcher.init).sent =
        (runLoop cfg lib pre Batcher.init).sent ++
          (if (runLoop cfg lib pre Batcher.init).batch.length > 0
            then [(runLoop cfg lib pre Batcher.init).batch] else []) ∧
      (runLoop cfg lib (pre ++ Event.closed :: post) Batcher.init).running = false ∧
      runLoop cfg lib (pre ++ [Event.closed]) Batcher.init =
        runLoop cfg lib (pre ++ Event.closed :: post) Batcher.init := by
  obtain ⟨hrun, hcons⟩ := runLoop_inputs_conserve cfg lib pre Batcher.init rfl hpre
  obtain ⟨hstop, hsent⟩ := finalFlush_sent (runLoop cfg lib pre Batcher.init)
  have hrest : ∀ rest, runLoop cfg lib (pre ++ Event.closed :: rest) Batcher.init =
      finalFlush (runLoop cfg lib pre Batcher.init) := by
    intro rest
    rw [runLoop_append, runLoop_cons_running _ _ _ _ _ hrun]
    exact runLoop_stopped _ _ _ _ hstop
  have hflat : (runLoop cfg lib (pre ++ Event.closed :: post) Batcher.init).sent.flatten =
      recordsOf lib pre := by
    rw [hrest, hsent, List.flatten_append]
    have : (if (runLoop cfg lib pre Batcher.init).batch.length > 0
        then [(runLoop cfg lib pre Batcher.init).batch] else []).flatten =
        (runLoop cfg lib pre Batcher.init).batch := by
      split_ifs with hb
      · simp
      · have : (runLoop cfg lib pre Batcher.init).batch = [] :=
          List.eq_nil_of_length_eq_zero (by omega)
        simp [this]
    rw [this, hcons]
    simp [Batcher.init]
  have hs : (runLoop cfg lib (pre ++ Event.closed :: post) Batcher.init).sent =
      (runLoop cfg lib pre Batcher.init).sent ++
        (if (runLoop cfg lib pre Batcher.init).batch.length > 0
          then [(runLoop cfg lib pre Batcher.init).batch] else []) := by
    rw [hrest, hsent]
  have hr : (runLoop cfg lib (pre ++ Event.closed :: post) Batcher.init).running = false := by
    rw [hrest, hstop]
  have hsame : runLoop cfg lib (pre ++ [Event.closed]) Batcher.init =
      runLoop cfg lib (pre ++ Event.closed :: post) Batcher.init := by
    rw [hrest, hrest]
  refine ⟨fun h => ⟨_, _, parseAndBatchData_starts cfg lib _ h,
      parseAndBatchData_starts cfg lib _ h, hflat, hs, hr, ?_⟩,
    parseAndBatchData_panics cfg lib _, hflat, hs, hr, hsame⟩
  rw [parseAndBatchData_starts cfg lib _ h, hsame]

/-- Witness of C9: a line, a tick, a status line, a line, closure, and a late tick,
under the default settings. -/
theorem closure_flushes_remainder_witness :
    ∃ s₁ s,
      parseAndBatchData defaultConfig sampleLib
        [Event.line exampleLine sampleClock, Event.tick, Event.line statusLine sampleClock,
          Event.line undatedLine laterClock] = some s₁ ∧
      parseAndBatchData defaultConfig sampleLib
        ([Event.line exampleLine sampleClock, Event.tick, Event.line statusLine sampleClock,
          Event.line undatedLine laterClock] ++ Event.closed :: [Event.tick]) = some s ∧
      s.sent.flatten = recordsOf sampleLib
        [Event.line exampleLine sampleClock, Event.tick, Event.line statusLine sampleClock,
          Event.line undatedLine laterClock] ∧
      s.sent = s₁.sent ++ (if s₁.batch.length > 0 then [s₁.batch] else []) ∧
      s.running = false ∧
      parseAndBatchData defaultConfig sampleLib
        ([Event.line exampleLine sampleClock, Event.tick, Event.line statusLine sampleClock,
          Event.line undatedLine laterClock] ++ [Event.closed]) = some s :=
  (closure_flushes_remainder defaultConfig sampleLib _ [Event.tick] (by decide)).1
    (by decide)

/-- C5: a line of 22 fields with first field `MSG` whose altitude, ground speed,
latitude and longitude texts are well-formed decodes to a record whose hex identifier
is the trimmed 5th field, whose altitude is the integer value of the 12th field,
whose ground speed, latitude and longitude are the values of the 13th, 15th and 16th
fields, and whose callsign and squawk are absent when the 11th and 18th fields are
empty.  The example line decodes to hex identifier `ABCDEF`, altitude 35000, ground
speed, latitude and longitude the values of `250.5`, `51.5` and `-0.1`, on-ground
present and false, and with batch size 1 the batcher emits exactly one batch, holding
that one record. -/
theorem full_line_decodes_and_batches (F T : Type) :
    (∀ (lib : StdLib F T) (clock : Clock T) (line : GoString) (alt : Int) (gs lat lon : F),
      (fieldsOf line).length = 22 →
      TrimSpace ((fieldsOf line).getD 0 []) = msgTag →
      Atoi (TrimSpace ((fieldsOf line).getD 11 [])) = some alt →
      (fieldsOf line).getD 12 [] ≠ [] →
      lib.ParseFloat (TrimSpace ((fieldsOf line).getD 12 [])) = some gs →
      (fieldsOf line).getD 14 [] ≠ [] →
      lib.ParseFloat (TrimSpace ((fieldsOf line).getD 14 [])) = some lat →
      (fieldsOf line).getD 15 [] ≠ [] →
      lib.ParseFloat (TrimSpace ((fieldsOf line).getD 15 [])) = some lon →
      ∃ r, ParseSBS1Message lib clock line = Except.ok (some r) ∧
        r.HexIdent = TrimSpace ((fieldsOf line).getD 4 []) ∧
        r.Altitude = some alt ∧ r.GroundSpeed = some gs ∧
        r.Latitude = some lat ∧ r.Longitude = some lon ∧
        ((fieldsOf line).getD 10 [] = [] → r.Callsign = []) ∧
        ((fieldsOf line).getD 17 [] = [] → r.Squawk = [])) ∧
    (∀ (lib : StdLib F T) (clock : Clock T) (cfg : Config) (gs lat lon : F),
      cfg.BatchSize = 1 → 0 < cfg.BatchInterval →
      lib.ParseFloat ['2', '5', '0', '.', '5'] = some gs →
      lib.ParseFloat ['5', '1', '.', '5'] = some lat →
      lib.ParseFloat ['-', '0', '.', '1'] = some lon →
      ∃ r, ParseSBS1Message lib clock exampleLine = Except.ok (some r) ∧
        r.HexIdent = ['A', 'B', 'C', 'D', 'E', 'F'] ∧
        r.Altitude = some 35000 ∧ r.GroundSpeed = some gs ∧
        r.Latitude = some lat ∧ r.Longitude = some lon ∧
        r.IsOnGround = some false ∧ r.Callsign = [] ∧ r.Squawk = [] ∧
        ∃ s, parseAndBatchData cfg lib [Event.line exampleLine clock] = some s ∧
          s.sent = [[r]] ∧ s.batch = []) := by
  refine ⟨?_, ?_⟩
  · intro lib clock line alt gs lat lon hlen htag halt hgs₀ hgs hlat₀ hlat hlon₀ hlon
    exact full_line_fields lib clock line alt gs lat lon hlen htag halt hgs₀ hgs hlat₀ hlat
      hlon₀ hlon
  · intro lib clock cfg gs lat lon hsz hiv hgs hlat hlon
    have hp : ParseSBS1Message lib clock exampleLine =
        Except.ok (some (buildRecord lib clock (fieldsOf exampleLine))) := rfl
    refine ⟨_, hp, rfl, rfl, hgs, hlat, hlon, rfl, rfl, rfl, _,
      parseAndBatchData_starts cfg lib _ (starts_of_unit cfg hsz hiv), ?_, ?_⟩
    · rw [runLoop_cons_running _ _ _ _ _ rfl, step_line_record cfg lib _ hp]
      simp [runLoop, Batcher.init, hsz]
    · rw [runLoop_cons_running _ _ _ _ _ rfl, step_line_record cfg lib _ hp]
      simp [runLoop, Batcher.init, hsz]

/-- Witness of C5: the example line under the sample library and batch size 1, for
the general statement and for the example. -/
theorem full_line_decodes_and_batches_witness :
    (∃ r, ParseSBS1Message sampleLib sampleClock exampleLine = Except.ok (some r) ∧
      r.HexIdent = TrimSpace ((fieldsOf exampleLine).getD 4 []) ∧
      r.Altitude = some 35000 ∧ r.GroundSpeed = some ['2', '5', '0', '.', '5'] ∧
      r.Latitude = some ['5', '1', '.', '5'] ∧ r.Longitude = some ['-', '0', '.', '1'] ∧
      ((fieldsOf exampleLine).getD 10 [] = [] → r.Callsign = []) ∧
      ((fieldsOf exampleLine).getD 17 [] = [] → r.Squawk = [])) ∧
    (∃ r, ParseSBS1Message sampleLib sampleClock exampleLine = Except.ok (some r) ∧
      r.HexIdent = ['A', 'B', 'C', 'D', 'E', 'F'] ∧
      r.Altitude = some 35000 ∧ r.GroundSpeed = some ['2', '5', '0', '.', '5'] ∧
      r.Latitude = some ['5', '1', '.', '5'] ∧ r.Longitude = some ['-', '0', '.', '1'] ∧
      r.IsOnGround = some false ∧ r.Callsign = [] ∧ r.Squawk = [] ∧
      ∃ s, parseAndBatchData unitConfig sampleLib [Event.line exampleLine sampleClock]
          = some s ∧ s.sent = [[r]] ∧ s.batch = []) :=
  ⟨(full_line_decodes_and_batches GoString GoString).1 sampleLib sampleClock exampleLine
      35000 ['2', '5', '0', '.', '5'] ['5', '1', '.', '5'] ['-', '0', '.', '1']
      (by decide) (by decide) (by decide) (by decide) (by decide) (by decide) (by decide)
      (by decide) (by decide),
    (full_line_decodes_and_batches GoString GoString).2 sampleLib sampleClock unitConfig
      _ _ _ (by decide) (by decide) (by decide) (by decide) (by decide)⟩

/-! ## Shutdown: batcher and sink writer -/

/-- C10, the failing schedules: the batcher holds a non-empty open batch, the queue is
empty, and `Start` closes `doneChan` and `flushChan`.  In the first schedule the
writer's `select` takes `doneChan` before the batcher has flushed; in the second the
batcher flushes first and the writer's `select`, with the final batch waiting in the
queue, still takes `doneChan`.  Either way both goroutines have stopped, nothing was
passed to `WriteBatch`, and the final batch is left in the queue. -/
theorem writer_may_stop_before_final_batch {F T : Type} (cfg : Config)
    (lib : StdLib F T) (b : Batcher F T)
    (written : List (List (AircraftData F T)))
    (hrun : b.running = true) (hne : b.batch.length > 0) :
    (∃ p, Pipeline.run cfg lib
          [Choice.shutdown, Choice.writer WriterCase.done, Choice.batcher Event.done]
          (Pipeline.drained b written) = some p ∧
        p.batcher.running = false ∧ p.writerRunning = false ∧
        p.written = written ∧ p.queue = [b.batch]) ∧
      (∃ q p, Pipeline.run cfg lib [Choice.shutdown, Choice.batcher Event.done]
          (Pipeline.drained b written) = some q ∧
        q.queue = [b.batch] ∧ q.writerRunning = true ∧
        q.step cfg lib (Choice.writer WriterCase.done) = some p ∧
        p.batcher.running = false ∧ p.writerRunning = false ∧
        p.written = written ∧ p.queue = [b.batch]) := by
  have hq : (finalFlush b).sent.drop b.sent.length = [b.batch] := by
    simp [(finalFlush_sent b).2, hne]
  have hstop := (finalFlush_sent b).1
  refine ⟨⟨{ batcher := finalFlush b, received := b.sent.length, written := written,
             writerRunning := false, shutdown := true }, ?_, hstop, rfl, rfl, hq⟩,
    ⟨{ batcher := finalFlush b, received := b.sent.length, written := written,
       writerRunning := true, shutdown := true },
     { batcher := finalFlush b, received := b.sent.length, written := written,
       writerRunning := false, shutdown := true }, ?_, hq, rfl, ?_, hstop, rfl, rfl, hq⟩⟩
  · simp [Pipeline.run, Pipeline.step, Pipeline.drained, Pipeline.queue, Event.ready,
      batchWriter, hrun, step, batchChanCap]
  · simp [Pipeline.run, Pipeline.step, Pipeline.drained, Pipeline.queue, Event.ready,
      hrun, step, batchChanCap]
  · simp [Pipeline.step, batchWriter]

/-- Witness of the C10 schedules: default settings (batch size 50), one decoded line
accumulated, then shutdown. -/
theorem writer_may_stop_before_final_batch_witness :
    ∃ p, Pipeline.run defaultConfig sampleLib
        [Choice.shutdown, Choice.writer WriterCase.done, Choice.batcher Event.done]
        (Pipeline.drained
          (runLoop defaultConfig sampleLib [Event.line exampleLine sampleClock] Batcher.init)
          []) = some p ∧
      p.batcher.running = false ∧ p.writerRunning = false ∧
      p.written = [] ∧
      p.queue = [(runLoop defaultConfig sampleLib [Event.line exampleLine sampleClock]
        Batcher.init).batch] :=
  (writer_may_stop_before_final_batch defaultConfig sampleLib _ [] (by decide)
    (by decide)).1

/-! ## The source reader: reconnect bound -/

/-- C11, the failing run: with maximum retry count `m ≥ 1`, a target that refuses
every connection and no shutdown, `connectToDump1090` makes `m + 1` dial attempts and
returns the max-retries error, which `readData` sends on `errorChan`; `readData` then
waits one retry delay and calls `connectToDump1090` again.  So the reader makes an
`(m + 2)`-th dial attempt, after `j` rounds it has made `j * (m + 1)` attempts and
reported `j` errors, and on no sequence of events of such a target does it stop or
close `dataChan`. -/
theorem reader_keeps_dialing_after_limit (m : Nat) (hm : 1 ≤ m) :
    (∃ s, runReader m (failedAttempts m ++ [ReaderEvent.dialFailed]) Reader.init = some s ∧
        s.dials = m + 1 ∧ s.errors = [ReaderError.maxRetriesExceeded m] ∧
        s.loc = ReaderLoc.errorWait) ∧
      (∃ s, runReader m (failedAttempts (m + 1) ++ [ReaderEvent.dialFailed]) Reader.init
          = some s ∧
        s.dials = m + 2 ∧ s.loc = ReaderLoc.connectWait 1 ∧ s.dataClosed = false) ∧
      (∀ j, ∃ s, runReader m (failedAttempts (j * (m + 1))) Reader.init = some s ∧
        s.dials = j * (m + 1) ∧
        s.errors = List.replicate j (ReaderError.maxRetriesExceeded m) ∧
        s.loc = ReaderLoc.dialing 0) ∧
      (∀ evs s, (∀ ev ∈ evs, ev ≠ ReaderEvent.dialConnected ∧ ev ≠ ReaderEvent.shutdown) →
        runReader m evs Reader.init = some s →
        s.loc ≠ ReaderLoc.stopped ∧ s.dataClosed = false) := by
  have hinit : Reader.init = Reader.retrying (.dialing 0) 0 [] := rfl
  refine ⟨⟨Reader.retrying .errorWait (m + 1) [.maxRetriesExceeded m], ?_, rfl, rfl, rfl⟩,
    ⟨Reader.retrying (.connectWait 1) (m + 2) [.maxRetriesExceeded m], ?_, rfl, rfl, rfl⟩,
    ?_, ?_⟩
  · rw [hinit, runReader_attempts_below m [] _ m 0 0 (by omega)]
    simpa using runReader_dial_at_limit m m [] hm
  · rw [hinit, runReader_round m hm]
    simpa using runReader_dial_below m 0 (m + 1) [.maxRetriesExceeded m] (by omega)
  · intro j
    refine ⟨Reader.retrying (.dialing 0) (j * (m + 1))
      (List.replicate j (.maxRetriesExceeded m)), ?_, rfl, rfl, rfl⟩
    have h := runReader_rounds m hm [] j 0 []
    simpa [runReader, hinit] using h
  · intro evs s hev hs
    obtain ⟨_, _, _, hdata, _, hloc⟩ :=
      runReader_isRetrying m evs Reader.init s init_isRetrying hev hs
    refine ⟨?_, hdata⟩
    rcases hloc with h | ⟨r, h | h⟩ <;> simp [h]

/-- Witness of the C11 run: maximum retry count 2; the fourth dial attempt is made. -/
theorem reader_keeps_dialing_after_limit_witness :
    ∃ s, runReader ((2 : Nat) : Int) (failedAttempts (2 + 1) ++ [ReaderEvent.dialFailed])
        Reader.init = some s ∧
      s.dials = 2 + 2 ∧ s.loc = ReaderLoc.connectWait 1 ∧ s.dataClosed = false :=
  (reader_keeps_dialing_after_limit 2 (by decide)).2.1

/-! ## The batcher: the flush-interval timer -/

/-- C12, counterexample: with one record in the open batch, the step on a timer tick
and the step on a flush request each emit a batch and keep running, and neither
calls `ticker.Reset`: the count of restarts is unchanged. -/
theorem tick_and_flush_do_not_restart_ticker :
    ((step defaultConfig sampleLib oneRecordState Event.tick).sent.length =
        oneRecordState.sent.length + 1 ∧
      (step defaultConfig sampleLib oneRecordState Event.tick).running = true ∧
      (step defaultConfig sampleLib oneRecordState Event.tick).resets =
        oneRecordState.resets) ∧
    ((step defaultConfig sampleLib oneRecordState Event.flush).sent.length =
        oneRecordState.sent.length + 1 ∧
      (step defaultConfig sampleLib oneRecordState Event.flush).running = true ∧
      (step defaultConfig sampleLib oneRecordState Event.flush).resets =
        oneRecordState.resets) := by
  decide

/-- C12, amended: a step of the running batcher that emits a batch because the size
threshold is reached keeps running, opens an empty batch and restarts the
flush-interval timer (one `ticker.Reset` call); a step that emits a batch on a timer
tick keeps running and opens an empty batch without restarting the ticker, which
stays on its periodic schedule. -/
theorem size_flush_restarts_ticker {F T : Type} (cfg : Config) (lib : StdLib F T)
    (s : Batcher F T) (hrun : s.running = true) :
    (∀ raw clock,
        (step cfg lib s (Event.line raw clock)).sent.length = s.sent.length + 1 →
        (step cfg lib s (Event.line raw clock)).running = true ∧
          (step cfg lib s (Event.line raw clock)).batch = [] ∧
          (step cfg lib s (Event.line raw clock)).resets = s.resets + 1) ∧
      ((step cfg lib s Event.tick).sent.length = s.sent.length + 1 →
        (step cfg lib s Event.tick).running = true ∧
          (step cfg lib s Event.tick).batch = [] ∧
          (step cfg lib s Event.tick).resets = s.resets) := by
  refine ⟨?_, ?_⟩
  · intro raw clock hemit
    cases hp : ParseSBS1Message lib clock raw with
    | error e =>
      rw [step_line_error cfg lib s hp] at hemit
      omega
    | ok o =>
      cases o with
      | none =>
        rw [step_line_skip cfg lib s hp] at hemit
        omega
      | some data =>
        rw [step_line_record cfg lib s hp] at hemit ⊢
        split_ifs at hemit ⊢ with hc
        · exact ⟨hrun, rfl, rfl⟩
        · simp at hemit
  · intro hemit
    simp only [step, flushOpen] at hemit ⊢
    split_ifs at hemit ⊢ with hb
    · exact ⟨hrun, rfl, rfl⟩
    · omega

/-- Witness of the amended C12: batch size 1 and the example line from the empty open
batch; the size flush restarts the ticker. -/
theorem size_flush_restarts_ticker_witness :
    (step unitConfig sampleLib Batcher.init (Event.line exampleLine sampleClock)).running
        = true ∧
      (step unitConfig sampleLib Batcher.init (Event.line exampleLine sampleClock)).batch
        = [] ∧
      (step unitConfig sampleLib Batcher.init (Event.line exampleLine sampleClock)).resets
        = (Batcher.init : Batcher GoString GoString).resets + 1 :=
  (size_flush_restarts_ticker unitConfig sampleLib Batcher.init rfl).1 exampleLine sampleClock
    (by decide)

end Dump1090
